import Mathlib

/-!
Verification development for the AIHarness multi-project protocol and storage
core (Rust sources under `src-tauri/src/`).  The Rust code is shallowly
embedded: SQLite-backed stores become pure functional states, async handlers
become state-passing functions, and external effects (filesystem tools, shell
commands, HTTP forwarding) become oracle parameters.  Each definition mirrors
one Rust item and is named after it where possible.
-/

set_option autoImplicit false

namespace AIHarness

/-! ## JSON values

Models `serde_json::Value` restricted to what the embedded code constructs
and inspects (no floating point numbers appear on any path the claims
exercise; `num` carries the integer case that `as_i64` reads). -/

inductive JsonVal where
  | null : JsonVal
  | bool (b : Bool) : JsonVal
  | num (n : Int) : JsonVal
  | str (s : String) : JsonVal
  | arr (xs : List JsonVal) : JsonVal
  | obj (fs : List (String × JsonVal)) : JsonVal

/-- `Value::get(key)` on an object: first field with the key. -/
def JsonVal.getField : JsonVal → String → Option JsonVal
  | .obj fs, k => (fs.find? (fun f => f.1 == k)).map (·.2)
  | _, _ => none

/-- `Value::as_str`. -/
def JsonVal.asStr : JsonVal → Option String
  | .str s => some s
  | _ => none

/-- `Value::as_i64` (integer numbers only, which is all the embedding carries). -/
def JsonVal.asI64 : JsonVal → Option Int
  | .num n => some n
  | _ => none

/-- `Value::as_bool`. -/
def JsonVal.asBool : JsonVal → Option Bool
  | .bool b => some b
  | _ => none

/-! ## Error types (`error.rs`) -/

/-- `ContextError` from `error.rs`. -/
inductive ContextError where
  | database (msg : String)
  | alreadyExists (path : String)
  | notInContext (path : String)
  | invalidPath (path : String)
deriving DecidableEq

/-- `Display for ContextError` from `error.rs`. -/
def ContextError.toMessage : ContextError → String
  | .database e => "Database error: " ++ e
  | .alreadyExists p => "File already in context: " ++ p
  | .notInContext p => "File not in context: " ++ p
  | .invalidPath p => "Invalid path: " ++ p

/-- `ToolError` from `error.rs`. -/
inductive ToolError where
  | fileNotFound (path : String)
  | permissionDenied (path : String)
  | invalidPath (path : String)
  | fileTooLarge (path : String) (size maxSize : Nat)
  | ioError (msg : String)
  | invalidArguments (msg : String)
  | notFound (tool : String)
  | timeout (tool : String) (durationMs : Nat)
  | binaryFile (path : String)
deriving DecidableEq

/-- `Display for ToolError` from `error.rs` (numeric interpolation kept
abstract as `toString`). -/
def ToolError.toMessage : ToolError → String
  | .fileNotFound p => "File not found: " ++ p
  | .permissionDenied p => "Permission denied: " ++ p
  | .invalidPath p => "Invalid path: " ++ p
  | .fileTooLarge p s m =>
      "File too large: " ++ p ++ " (" ++ toString s ++ " bytes, max " ++ toString m ++ ")"
  | .ioError e => "IO error: " ++ e
  | .invalidArguments e => "Invalid arguments: " ++ e
  | .notFound t => "Tool not found: " ++ t
  | .timeout t d => "Tool " ++ t ++ " timed out after " ++ toString d ++ "ms"
  | .binaryFile p => "Binary file cannot be read as text: " ++ p

/-- `McpError`: the protocol error type used throughout `mcp.rs`.  Its
declaring module is referenced as `crate::error::McpError` but is not under
`src/`; the variant set is taken from its use sites in `mcp.rs`. -/
inductive McpError where
  | notInitialized
  | alreadyInitialized
  | unknownMethod (m : String)
  | missingParameter (p : String)
  | toolNotFound (name : String)
  | toolExecutionFailed (msg : String)
  | internalError (msg : String)
  | invalidParameter (name value : String)
  | resourceNotFound (msg : String)
deriving DecidableEq

/-- Modelled from the spec: the `Display` rendering of `McpError`, whose
declaring source file is missing from `src/` (only its use sites in `mcp.rs`
are present).  The spec describes these failures only by name
(`NotInitialized`, `AlreadyInitialized`, unknown method, missing/invalid
parameter, internal failure); the exact message text is immaterial to every
claim, which depend only on the variant and on the numeric code chosen at
the JSON-RPC boundary in `mcp.rs`. -/
def McpError.toMessage : McpError → String
  | .notInitialized => "Server not initialized"
  | .alreadyInitialized => "Server already initialized"
  | .unknownMethod m => "Unknown method: " ++ m
  | .missingParameter p => "Missing parameter: " ++ p
  | .toolNotFound n => "Tool not found: " ++ n
  | .toolExecutionFailed m => "Tool execution failed: " ++ m
  | .internalError m => "Internal error: " ++ m
  | .invalidParameter n v => "Invalid parameter " ++ n ++ ": " ++ v
  | .resourceNotFound m => "Resource not found: " ++ m

/-! ## Ordered todo store (`todos.rs`)

The SQLite table `todos` becomes a list of rows; `uuid::Uuid::new_v4()`
becomes a fresh-id generator driven by a counter (`genId`/`nextId`), which
models exactly the freshness property a v4 UUID provides.  Timestamps become
an abstract `Nat` clock passed in by the caller. -/

/-- Fresh row id number `k` (models a freshly generated UUID: distinct from
every previously generated id). -/
def genId (k : Nat) : String := String.mk (List.replicate k 'u')

theorem genId_injective : Function.Injective genId := by
  intro a b h
  have : (genId a).length = (genId b).length := by rw [h]
  simpa [genId, String.length] using this

/-- `TodoItem` from `todos.rs`. -/
structure TodoItem where
  id : String
  title : String
  description : Option String
  completed : Bool
  position : Int
  created_at : Nat
  updated_at : Nat
deriving DecidableEq

/-- The `todos` table plus the UUID-freshness counter. -/
structure TodoDb where
  rows : List TodoItem
  nextId : Nat
deriving DecidableEq

def emptyTodoDb : TodoDb := { rows := [], nextId := 0 }

/-- `shift_positions` from `todos.rs`:
`UPDATE todos SET position = position + delta WHERE position >= start`. -/
def shift_positions (rows : List TodoItem) (start delta : Int) : List TodoItem :=
  rows.map (fun r => if start ≤ r.position then { r with position := r.position + delta } else r)

/-- `find_position` from `todos.rs`:
`SELECT position FROM todos WHERE id = ?` (first match; `id` is the primary
key, so at most one row matches). -/
def find_position (rows : List TodoItem) (id : String) : Option Int :=
  (rows.find? (fun r => r.id == id)).map (·.position)

/-- `SELECT MAX(position) FROM todos`. -/
def maxPos : List Int → Option Int
  | [] => none
  | x :: xs =>
    match maxPos xs with
    | none => some x
    | some m => some (max x m)

/-- `TodoStore::next_position`: `MAX(position)` with `NULL → -1`, plus one. -/
def next_position (rows : List TodoItem) : Int :=
  (maxPos (rows.map (·.position))).getD (-1) + 1

namespace TodoStore

/-- `TodoStore::add`.  Resolves the target position (explicit, or max+1),
shifts every row at or above it up by one, then inserts the new row.
Returns the new row and the updated table. -/
def add (db : TodoDb) (title : String) (description : Option String)
    (position : Option Int) (now : Nat) : TodoItem × TodoDb :=
  let id := genId db.nextId
  let position := position.getD (next_position db.rows)
  let shifted := shift_positions db.rows position 1
  let item : TodoItem :=
    { id := id, title := title, description := description, completed := false,
      position := position, created_at := now, updated_at := now }
  (item, { rows := shifted ++ [item], nextId := db.nextId + 1 })

/-- `TodoStore::remove`.  Looks up the row's position, deletes the row
(`DELETE ... WHERE id = ?`), errors `NotInContext` when nothing was deleted,
and otherwise shifts every row above the removed position down by one. -/
def remove (db : TodoDb) (id : String) : Except ContextError TodoDb :=
  let position := find_position db.rows id
  let deleted := db.rows.filter (fun r => !(r.id == id))
  if deleted.length == db.rows.length then
    .error (.notInContext id)
  else
    match position with
    | some p => .ok { db with rows := shift_positions deleted (p + 1) (-1) }
    | none => .ok { db with rows := deleted }

/-- `TodoStore::set_completed`:
`UPDATE todos SET completed = ?, updated_at = ? WHERE id = ?`, erroring
`NotInContext` when no row matched. -/
def set_completed (db : TodoDb) (id : String) (completed : Bool) (now : Nat) :
    Except ContextError TodoDb :=
  if db.rows.any (fun r => r.id == id) then
    .ok { db with rows := db.rows.map (fun r =>
      if r.id == id then { r with completed := completed, updated_at := now } else r) }
  else
    .error (.notInContext id)

/-- `TodoStore::move_to`.  No-op when the row is already at the target;
otherwise closes the gap left behind (moving up) or opens a gap (moving
down) with one ranged `UPDATE`, then assigns the target position to the
moved row. -/
def move_to (db : TodoDb) (id : String) (new_position : Int) (now : Nat) :
    Except ContextError TodoDb :=
  match find_position db.rows id with
  | none => .error (.notInContext id)
  | some current_position =>
    if current_position == new_position then
      .ok db
    else
      let rows :=
        if new_position > current_position then
          db.rows.map (fun r =>
            if current_position < r.position ∧ r.position ≤ new_position then
              { r with position := r.position - 1 } else r)
        else
          db.rows.map (fun r =>
            if new_position ≤ r.position ∧ r.position < current_position then
              { r with position := r.position + 1 } else r)
      .ok { db with rows := rows.map (fun r =>
        if r.id == id then { r with position := new_position, updated_at := now } else r) }

end TodoStore

/-! ## Default-flagged build command store (`build_commands.rs`) -/

/-- `BuildCommand` from `build_commands.rs`. -/
structure BuildCommand where
  id : String
  name : String
  command : String
  working_dir : Option String
  is_default : Bool
  created_at : Nat
deriving DecidableEq

/-- The `build_commands` table plus the UUID-freshness counter. -/
structure BuildDb where
  rows : List BuildCommand
  nextId : Nat
deriving DecidableEq

def emptyBuildDb : BuildDb := { rows := [], nextId := 0 }

/-- `clear_default` from `build_commands.rs`:
`UPDATE build_commands SET is_default = 0`. -/
def clear_default (rows : List BuildCommand) : List BuildCommand :=
  rows.map (fun r => { r with is_default := false })

/-- `BuildCommandStore::default_is_missing`:
`SELECT COUNT(*) ... WHERE is_default = 1` compared with zero. -/
def default_is_missing (rows : List BuildCommand) : Bool :=
  rows.countP (fun r => r.is_default) == 0

namespace BuildCommandStore

/-- `BuildCommandStore::add`.  The new row becomes the default exactly when
no default-flagged row exists. -/
def add (db : BuildDb) (name command : String) (working_dir : Option String)
    (now : Nat) : BuildCommand × BuildDb :=
  let id := genId db.nextId
  let should_default := default_is_missing db.rows
  let rows := if should_default then clear_default db.rows else db.rows
  let cmd : BuildCommand :=
    { id := id, name := name, command := command, working_dir := working_dir,
      is_default := should_default, created_at := now }
  (cmd, { rows := rows ++ [cmd], nextId := db.nextId + 1 })

/-- `BuildCommandStore::remove`: `DELETE ... WHERE id = ?`, erroring
`NotInContext` when nothing was deleted. -/
def remove (db : BuildDb) (id : String) : Except ContextError BuildDb :=
  let deleted := db.rows.filter (fun r => !(r.id == id))
  if deleted.length == db.rows.length then
    .error (.notInContext id)
  else
    .ok { db with rows := deleted }

/-- `BuildCommandStore::get`: `SELECT ... WHERE id = ?`. -/
def get (db : BuildDb) (id : String) : Option BuildCommand :=
  db.rows.find? (fun r => r.id == id)

/-- `BuildCommandStore::set_default`.  Clears the flag on every row and then
sets it on the target.  The two statements are separate (no transaction), so
on a missing target the clearing has already happened: the result pairs the
`Result` with the table state actually left behind. -/
def set_default (db : BuildDb) (id : String) :
    Except ContextError Unit × BuildDb :=
  let cleared := clear_default db.rows
  if db.rows.any (fun r => r.id == id) then
    (.ok (), { db with rows := cleared.map (fun r =>
      if r.id == id then { r with is_default := true } else r) })
  else
    (.error (.notInContext id), { db with rows := cleared })

/-- `BuildCommandStore::get_default`:
`SELECT ... WHERE is_default = 1 ORDER BY created_at DESC LIMIT 1`. -/
def get_default (db : BuildDb) : Option BuildCommand :=
  ((db.rows.filter (fun r => r.is_default)).mergeSort
    (fun a b => b.created_at ≤ a.created_at)).head?

end BuildCommandStore

/-! ## Operation sequences over the two stores (for the invariant claims) -/

/-- One mutating call against a `TodoStore`, as named in the claims. -/
inductive TodoOp where
  | add (title : String) (description : Option String) (position : Option Int)
  | remove (id : String)
  | moveTo (id : String) (position : Int)

/-- Apply one call; a call that returns an error leaves the table as the
store left it (for `remove` and `move_to` that is the unchanged table). -/
def applyTodoOp (db : TodoDb) (op : TodoOp) : TodoDb :=
  match op with
  | .add t d p => (TodoStore.add db t d p 0).2
  | .remove id =>
    match TodoStore.remove db id with
    | .ok db' => db'
    | .error _ => db
  | .moveTo id p =>
    match TodoStore.move_to db id p 0 with
    | .ok db' => db'
    | .error _ => db

def runTodoOps (ops : List TodoOp) : TodoDb :=
  ops.foldl applyTodoOp emptyTodoDb

/-- The position values stored in the table. -/
def positions (rows : List TodoItem) : List Int := rows.map (·.position)

/-- The claim's invariant: the set of positions is exactly
`{0, …, count-1}` — no duplicates and no gaps. -/
def contiguous (rows : List TodoItem) : Prop :=
  (positions rows).Nodup ∧
    ∀ k : Int, k ∈ positions rows ↔ 0 ≤ k ∧ k < (rows.length : Int)

/-- One mutating call against a `BuildCommandStore`. -/
inductive BuildOp where
  | add (name command : String) (working_dir : Option String)
  | remove (id : String)
  | setDefault (id : String)

def applyBuildOp (db : BuildDb) (op : BuildOp) : BuildDb :=
  match op with
  | .add n c w => (BuildCommandStore.add db n c w 0).2
  | .remove id =>
    match BuildCommandStore.remove db id with
    | .ok db' => db'
    | .error _ => db
  | .setDefault id => (BuildCommandStore.set_default db id).2

def runBuildOps (ops : List BuildOp) : BuildDb :=
  ops.foldl applyBuildOp emptyBuildDb

/-- Number of default-flagged rows. -/
def defaultCount (rows : List BuildCommand) : Nat :=
  rows.countP (fun r => r.is_default)

/-! ## Invariant machinery for the build command store (claim C2) -/

/-- Reachability invariant for the build table: row ids are pairwise
distinct generated ids below the counter, and at most one row is flagged. -/
structure BuildInv (db : BuildDb) : Prop where
  ids_nodup : (db.rows.map (·.id)).Nodup
  ids_gen : ∀ r ∈ db.rows, ∃ k, r.id = genId k ∧ k < db.nextId
  dflt : defaultCount db.rows ≤ 1

theorem clear_default_ids (rows : List BuildCommand) :
    (clear_default rows).map (·.id) = rows.map (·.id) := by
  simp [clear_default, List.map_map]

theorem clear_default_count (rows : List BuildCommand) :
    defaultCount (clear_default rows) = 0 := by
  simp [clear_default, defaultCount, List.countP_map, Function.comp_def]

theorem buildInv_empty : BuildInv emptyBuildDb :=
  ⟨by simp [emptyBuildDb], by simp [emptyBuildDb], by simp [emptyBuildDb, defaultCount]⟩

/-- Shared id argument: a freshly generated id never collides with a stored
one. -/
theorem genId_fresh_build (db : BuildDb)
    (hgen : ∀ r ∈ db.rows, ∃ k, r.id = genId k ∧ k < db.nextId)
    (rows : List BuildCommand) (hids : rows.map (·.id) = db.rows.map (·.id)) :
    genId db.nextId ∉ rows.map (·.id) := by
  rw [hids]
  intro hmem
  rcases List.mem_map.mp hmem with ⟨r, hr, hrid⟩
  rcases hgen r hr with ⟨k, hk, hklt⟩
  rw [hk] at hrid
  exact absurd (genId_injective hrid) (Nat.ne_of_lt hklt)

theorem buildInv_add (db : BuildDb) (h : BuildInv db) (n c : String)
    (w : Option String) (now : Nat) :
    BuildInv (BuildCommandStore.add db n c w now).2 := by
  obtain ⟨hids, hgen, hd⟩ := h
  set base := if default_is_missing db.rows then clear_default db.rows else db.rows with hbase
  have hbase_ids : base.map (·.id) = db.rows.map (·.id) := by
    rw [hbase]
    by_cases hsd : default_is_missing db.rows
    · simp [hsd, clear_default_ids]
    · simp [hsd]
  have hbase_count : defaultCount base ≤ 1 := by
    rw [hbase]
    by_cases hsd : default_is_missing db.rows
    · simp [hsd, clear_default_count]
    · simpa [hsd] using hd
  constructor
  · simp only [BuildCommandStore.add, List.map_append, ← hbase]
    refine List.Nodup.append (hbase_ids ▸ hids) (List.nodup_singleton _) ?_
    intro a ha hb
    simp only [List.map_cons, List.map_nil, List.mem_singleton] at hb
    subst hb
    exact genId_fresh_build db hgen base hbase_ids ha
  · intro r hr
    simp only [BuildCommandStore.add, ← hbase, List.mem_append, List.mem_singleton] at hr
    rcases hr with hr | hr
    · have hr' : r.id ∈ base.map (·.id) := List.mem_map_of_mem _ hr
      rw [hbase_ids] at hr'
      rcases List.mem_map.mp hr' with ⟨r', hr', hrid⟩
      rcases hgen r' hr' with ⟨k, hk, hklt⟩
      exact ⟨k, by rw [← hrid, hk], Nat.lt_succ_of_lt hklt⟩
    · subst hr
      exact ⟨db.nextId, rfl, Nat.lt_succ_self _⟩
  · show defaultCount (base ++ [_]) ≤ 1
    simp only [defaultCount, List.countP_append, List.countP_cons, List.countP_nil]
    by_cases hsd : default_is_missing db.rows
    · have h0 : defaultCount base = 0 := by rw [hbase]; simp [hsd, clear_default_count]
      simp only [defaultCount] at h0
      simp [h0, hsd]
    · have hff : default_is_missing db.rows = false := by
        simpa using hsd
      have h1 : List.countP (fun r => r.is_default) base ≤ 1 := hbase_count
      simp only [hff, Bool.false_eq_true, if_false]
      omega

theorem buildInv_remove (db : BuildDb) (h : BuildInv db) (id : String)
    (db' : BuildDb) (hok : BuildCommandStore.remove db id = .ok db') :
    BuildInv db' := by
  obtain ⟨hids, hgen, hd⟩ := h
  simp only [BuildCommandStore.remove] at hok
  by_cases hlen : ((db.rows.filter (fun r => !(r.id == id))).length == db.rows.length) = true
  · rw [if_pos hlen] at hok; cases hok
  · rw [if_neg hlen] at hok
    cases hok
    refine ⟨?_, ?_, ?_⟩
    · have hsub : List.Sublist ((db.rows.filter (fun r => !(r.id == id))).map (·.id))
          (db.rows.map (·.id)) :=
        List.Sublist.map _ (List.filter_sublist _)
      exact List.Nodup.sublist hsub hids
    · intro r hr
      exact hgen r (List.mem_of_mem_filter hr)
    · calc defaultCount (db.rows.filter fun r => !(r.id == id))
          ≤ defaultCount db.rows :=
            (List.filter_sublist _).countP_le _
        _ ≤ 1 := hd

theorem buildInv_set_default (db : BuildDb) (h : BuildInv db) (id : String) :
    BuildInv (BuildCommandStore.set_default db id).2 := by
  obtain ⟨hids, hgen, hd⟩ := h
  have hclr_ids := clear_default_ids db.rows
  by_cases hmem : (db.rows.any (fun r => r.id == id)) = true
  · have hrows : (BuildCommandStore.set_default db id).2.rows =
        (clear_default db.rows).map (fun r =>
          if r.id == id then { r with is_default := true } else r) := by
      simp [BuildCommandStore.set_default, hmem]
    have hids' : (BuildCommandStore.set_default db id).2.rows.map (·.id) =
        db.rows.map (·.id) := by
      rw [hrows, List.map_map, ← hclr_ids]
      refine List.map_congr_left ?_
      intro r _
      by_cases hr : r.id = id
      · simp [Function.comp_def, hr]
      · simp [Function.comp_def, hr]
    refine ⟨hids' ▸ hids, ?_, ?_⟩
    · intro r hr
      have : r.id ∈ (BuildCommandStore.set_default db id).2.rows.map (·.id) :=
        List.mem_map_of_mem _ hr
      rw [hids'] at this
      rcases List.mem_map.mp this with ⟨r', hr', hrid⟩
      rcases hgen r' hr' with ⟨k, hk, hklt⟩
      have hnid : (BuildCommandStore.set_default db id).2.nextId = db.nextId := by
        simp [BuildCommandStore.set_default, hmem]
      exact ⟨k, by rw [← hrid, hk], by rw [hnid]; exact hklt⟩
    · -- after clearing, the flag of each mapped row is exactly "has the target id"
      rw [hrows]
      have hcnt : defaultCount ((clear_default db.rows).map (fun r =>
          if r.id == id then { r with is_default := true } else r)) =
          (clear_default db.rows).countP (fun r => r.id == id) := by
        simp only [defaultCount, List.countP_map]
        refine List.countP_congr ?_
        intro r hr
        have hrf : r.is_default = false := by
          rcases List.mem_map.mp hr with ⟨r0, _, hr0⟩
          rw [← hr0]
        by_cases hrid : r.id = id
        · simp [Function.comp_def, hrid]
        · simp [Function.comp_def, hrid, hrf]
      rw [hcnt]
      have : (clear_default db.rows).countP (fun r => r.id == id) =
          ((clear_default db.rows).map (·.id)).count id := by
        rw [List.count_eq_countP, List.countP_map]
        rfl
      rw [this, hclr_ids]
      exact List.nodup_iff_count_le_one.mp hids id
  · have hrows : (BuildCommandStore.set_default db id).2.rows =
        clear_default db.rows := by
      simp only [BuildCommandStore.set_default]
      rw [if_neg hmem]
    refine ⟨hrows ▸ hclr_ids ▸ hids, ?_, ?_⟩
    · intro r hr
      rw [hrows] at hr
      have : r.id ∈ (clear_default db.rows).map (·.id) := List.mem_map_of_mem _ hr
      rw [hclr_ids] at this
      rcases List.mem_map.mp this with ⟨r', hr', hrid⟩
      rcases hgen r' hr' with ⟨k, hk, hklt⟩
      have hnid : (BuildCommandStore.set_default db id).2.nextId = db.nextId := by
        simp [BuildCommandStore.set_default, hmem]
      exact ⟨k, by rw [← hrid, hk], by rw [hnid]; exact hklt⟩
    · rw [hrows, clear_default_count]
      omega

theorem buildInv_apply (db : BuildDb) (op : BuildOp) (h : BuildInv db) :
    BuildInv (applyBuildOp db op) := by
  cases op with
  | add n c w => exact buildInv_add db h n c w 0
  | remove id =>
    rcases hok : BuildCommandStore.remove db id with e | db'
    · simp only [applyBuildOp, hok]
      exact h
    · simp only [applyBuildOp, hok]
      exact buildInv_remove db h id db' hok
  | setDefault id => exact buildInv_set_default db h id

theorem buildInv_foldl (ops : List BuildOp) :
    ∀ db : BuildDb, BuildInv db → BuildInv (ops.foldl applyBuildOp db) := by
  induction ops with
  | nil => intro db h; exact h
  | cons op ops ih =>
    intro db h
    exact ih _ (buildInv_apply db op h)

/-! ## Invariant machinery for the todo store (claims C1, C9)

The reachability invariant keeps the row ids distinct (UUID freshness) and
the positions distinct and in range; contiguity follows by pigeonhole. -/

structure TodoInv (db : TodoDb) : Prop where
  ids_nodup : (db.rows.map (·.id)).Nodup
  ids_gen : ∀ r ∈ db.rows, ∃ k, r.id = genId k ∧ k < db.nextId
  pos_nodup : (positions db.rows).Nodup
  pos_mem : ∀ q ∈ positions db.rows, 0 ≤ q ∧ q < (db.rows.length : Int)

theorem todoInv_empty : TodoInv emptyTodoDb :=
  ⟨by simp [emptyTodoDb], by simp [emptyTodoDb], by simp [emptyTodoDb, positions],
   by simp [emptyTodoDb, positions]⟩

/-- A freshly generated id never collides with a stored one. -/
theorem genId_fresh_todo (db : TodoDb)
    (hgen : ∀ r ∈ db.rows, ∃ k, r.id = genId k ∧ k < db.nextId)
    (rows : List TodoItem) (hids : rows.map (·.id) = db.rows.map (·.id)) :
    genId db.nextId ∉ rows.map (·.id) := by
  rw [hids]
  intro hmem
  rcases List.mem_map.mp hmem with ⟨r, hr, hrid⟩
  rcases hgen r hr with ⟨k, hk, hklt⟩
  rw [hk] at hrid
  exact absurd (genId_injective hrid) (Nat.ne_of_lt hklt)

/-- Mapping a row function that only rewrites `position` acts on the
positions list through the corresponding integer function. -/
theorem positions_map_posfun (rows : List TodoItem) (g : TodoItem → TodoItem)
    (f : Int → Int) (hg : ∀ r, (g r).position = f r.position) :
    positions (rows.map g) = (positions rows).map f := by
  simp only [positions, List.map_map]
  exact List.map_congr_left (fun r _ => hg r)

/-- Mapping a row function that keeps `id` fixed leaves the ids list alone. -/
theorem ids_map_pres (rows : List TodoItem) (g : TodoItem → TodoItem)
    (hg : ∀ r, (g r).id = r.id) :
    (rows.map g).map (·.id) = rows.map (·.id) := by
  simp only [List.map_map]
  exact List.map_congr_left (fun r _ => hg r)

/-- Decomposing a list at a successful `find?`. -/
theorem find?_decomp {α : Type} (p : α → Bool) (l : List α) (a : α)
    (h : l.find? p = some a) :
    p a = true ∧ ∃ l1 l2, l = l1 ++ a :: l2 ∧ ∀ x ∈ l1, p x = false := by
  induction l with
  | nil => simp [List.find?] at h
  | cons x xs ih =>
    by_cases hx : p x = true
    · rw [List.find?_cons_of_pos _ hx] at h
      cases h
      exact ⟨hx, [], xs, rfl, by simp⟩
    · rw [List.find?_cons_of_neg _ hx] at h
      obtain ⟨hpa, l1, l2, heq, hl1⟩ := ih h
      refine ⟨hpa, x :: l1, l2, by rw [heq]; rfl, ?_⟩
      intro y hy
      rcases List.mem_cons.mp hy with rfl | hy
      · simpa using hx
      · exact hl1 y hy

/-- Decomposing the todo table at the (unique) row carrying a given id. -/
theorem find_row_decomp (rows : List TodoItem) (id : String) (r0 : TodoItem)
    (hids : (rows.map (·.id)).Nodup)
    (hfind : rows.find? (fun r => r.id == id) = some r0) :
    r0.id = id ∧ ∃ l1 l2, rows = l1 ++ r0 :: l2 ∧
      (∀ r ∈ l1, (r.id == id) = false) ∧ (∀ r ∈ l2, (r.id == id) = false) := by
  obtain ⟨hp, l1, l2, heq, hl1⟩ := find?_decomp _ rows r0 hfind
  have hr0 : r0.id = id := by simpa using hp
  refine ⟨hr0, l1, l2, heq, hl1, ?_⟩
  intro r hr
  have : (l1.map (·.id) ++ r0.id :: l2.map (·.id)).Nodup := by
    rw [heq] at hids
    simpa using hids
  have hnotin : r0.id ∉ l2.map (·.id) := by
    have := (List.nodup_append.mp this).2.1
    exact (List.nodup_cons.mp this).1
  have : r.id ≠ id := by
    intro hrid
    exact hnotin (hr0 ▸ hrid ▸ List.mem_map_of_mem _ hr)
  simpa using this

/-- A row map that fixes every row whose id is not the target. -/
theorem map_setif_of_not (l : List TodoItem) (id : String)
    (g : TodoItem → TodoItem)
    (hl : ∀ r ∈ l, (r.id == id) = false) :
    l.map (fun r => if r.id == id then g r else r) = l := by
  rw [show l.map (fun r => if r.id == id then g r else r) =
      l.map (fun r => r) from List.map_congr_left ?_, List.map_id']
  intro r hr
  simp [hl r hr]

/-- The `DELETE` of `remove`, computed on the decomposition. -/
theorem filter_decomp (l1 l2 : List TodoItem) (r0 : TodoItem) (id : String)
    (hr0 : r0.id = id)
    (h1 : ∀ r ∈ l1, (r.id == id) = false) (h2 : ∀ r ∈ l2, (r.id == id) = false) :
    (l1 ++ r0 :: l2).filter (fun r => !(r.id == id)) = l1 ++ l2 := by
  rw [List.filter_append, List.filter_cons]
  have : (!(r0.id == id)) = false := by simp [hr0]
  rw [this]
  simp only [Bool.false_eq_true, if_false]
  rw [List.filter_eq_self.mpr, List.filter_eq_self.mpr]
  · intro r hr; simp [h2 r hr]
  · intro r hr; simp [h1 r hr]

/-! Integer-level facts about the four position rearrangements. -/

/-- `add` at position `p ∈ [0, n]`: shifting up everything at or above `p`
keeps positions distinct, leaves `p` vacant, and stays inside `[0, n+1)`. -/
theorem int_shift_up (S : List Int) (n p : Int) (hS : S.Nodup)
    (hmem : ∀ q ∈ S, 0 ≤ q ∧ q < n) (hp0 : 0 ≤ p) (hpn : p ≤ n) :
    (S.map (fun q => if p ≤ q then q + 1 else q)).Nodup ∧
    p ∉ S.map (fun q => if p ≤ q then q + 1 else q) ∧
    ∀ q ∈ S.map (fun q => if p ≤ q then q + 1 else q), 0 ≤ q ∧ q < n + 1 := by
  refine ⟨?_, ?_, ?_⟩
  · refine List.Nodup.map_on ?_ hS
    intro a _ b _ hab
    split_ifs at hab <;> omega
  · intro hmm
    rcases List.mem_map.mp hmm with ⟨q, hq, hfq⟩
    have := hmem q hq
    split_ifs at hfq <;> omega
  · intro q' hq'
    rcases List.mem_map.mp hq' with ⟨q, hq, hfq⟩
    have := hmem q hq
    split_ifs at hfq <;> omega

/-- `remove` of the row at position `p`: shifting down everything strictly
above `p` re-packs the remaining positions into `[0, n-1)`. -/
theorem int_shift_down (S : List Int) (n p : Int) (hS : S.Nodup)
    (hmem : ∀ q ∈ S, (0 ≤ q ∧ q < n) ∧ q ≠ p) (hp0 : 0 ≤ p) (hpn : p < n) :
    (S.map (fun q => if p + 1 ≤ q then q - 1 else q)).Nodup ∧
    ∀ q ∈ S.map (fun q => if p + 1 ≤ q then q - 1 else q), 0 ≤ q ∧ q < n - 1 := by
  refine ⟨?_, ?_⟩
  · refine List.Nodup.map_on ?_ hS
    intro a ha b hb hab
    have := hmem a ha
    have := hmem b hb
    split_ifs at hab <;> omega
  · intro q' hq'
    rcases List.mem_map.mp hq' with ⟨q, hq, hfq⟩
    have := hmem q hq
    split_ifs at hfq <;> omega

/-- `move_to` a higher position: decrementing `(cur, new]` over the other
rows leaves `new` vacant and every value distinct and in range. -/
theorem int_move_up (S : List Int) (n cur new : Int) (hS : S.Nodup)
    (hmem : ∀ q ∈ S, (0 ≤ q ∧ q < n) ∧ q ≠ cur)
    (hcn : cur < new) (hc0 : 0 ≤ cur) (hnn : new < n) :
    (S.map (fun q => if cur < q ∧ q ≤ new then q - 1 else q)).Nodup ∧
    new ∉ S.map (fun q => if cur < q ∧ q ≤ new then q - 1 else q) ∧
    ∀ q ∈ S.map (fun q => if cur < q ∧ q ≤ new then q - 1 else q), 0 ≤ q ∧ q < n := by
  refine ⟨?_, ?_, ?_⟩
  · refine List.Nodup.map_on ?_ hS
    intro a ha b hb hab
    have := hmem a ha
    have := hmem b hb
    split_ifs at hab <;> omega
  · intro hmm
    rcases List.mem_map.mp hmm with ⟨q, hq, hfq⟩
    have := hmem q hq
    split_ifs at hfq <;> omega
  · intro q' hq'
    rcases List.mem_map.mp hq' with ⟨q, hq, hfq⟩
    have := hmem q hq
    split_ifs at hfq <;> omega

/-- `move_to` a lower position: incrementing `[new, cur)` over the other
rows leaves `new` vacant and every value distinct and in range. -/
theorem int_move_down (S : List Int) (n cur new : Int) (hS : S.Nodup)
    (hmem : ∀ q ∈ S, (0 ≤ q ∧ q < n) ∧ q ≠ cur)
    (hcn : new < cur) (hn0 : 0 ≤ new) (hcurn : cur < n) :
    (S.map (fun q => if new ≤ q ∧ q < cur then q + 1 else q)).Nodup ∧
    new ∉ S.map (fun q => if new ≤ q ∧ q < cur then q + 1 else q) ∧
    ∀ q ∈ S.map (fun q => if new ≤ q ∧ q < cur then q + 1 else q), 0 ≤ q ∧ q < n := by
  refine ⟨?_, ?_, ?_⟩
  · refine List.Nodup.map_on ?_ hS
    intro a ha b hb hab
    have := hmem a ha
    have := hmem b hb
    split_ifs at hab <;> omega
  · intro hmm
    rcases List.mem_map.mp hmm with ⟨q, hq, hfq⟩
    have := hmem q hq
    split_ifs at hfq <;> omega
  · intro q' hq'
    rcases List.mem_map.mp hq' with ⟨q, hq, hfq⟩
    have := hmem q hq
    split_ifs at hfq <;> omega

/-! Splitting off and re-inserting the distinguished element of the
positions list. -/

theorem middle_split (A B : List Int) (c n : Int)
    (hnodup : (A ++ c :: B).Nodup)
    (hmem : ∀ q ∈ A ++ c :: B, 0 ≤ q ∧ q < n) :
    (A ++ B).Nodup ∧ (∀ q ∈ A ++ B, (0 ≤ q ∧ q < n) ∧ q ≠ c) ∧ (0 ≤ c ∧ c < n) := by
  have hperm : (A ++ c :: B).Perm (c :: (A ++ B)) := List.perm_middle
  have hnd' : (c :: (A ++ B)).Nodup := hperm.nodup_iff.mp hnodup
  have hcnot : c ∉ A ++ B := (List.nodup_cons.mp hnd').1
  refine ⟨(List.nodup_cons.mp hnd').2, ?_, ?_⟩
  · intro q hq
    have hq' : q ∈ A ++ c :: B := hperm.mem_iff.mpr (List.mem_cons_of_mem _ hq)
    exact ⟨hmem q hq', fun hqc => hcnot (hqc ▸ hq)⟩
  · exact hmem c (hperm.mem_iff.mpr (List.mem_cons_self _ _))

theorem middle_assemble (A B : List Int) (c : Int)
    (hnd : (A ++ B).Nodup) (hc : c ∉ A ++ B) :
    (A ++ c :: B).Nodup := by
  have hperm : (A ++ c :: B).Perm (c :: (A ++ B)) := List.perm_middle
  exact hperm.nodup_iff.mpr (List.nodup_cons.mpr ⟨hc, hnd⟩)

/-! `next_position` facts. -/

theorem maxPos_eq_none (l : List Int) : maxPos l = none ↔ l = [] := by
  cases l with
  | nil => simp [maxPos]
  | cons x xs =>
    simp only [maxPos]
    cases maxPos xs <;> simp

theorem maxPos_mem (l : List Int) (m : Int) (h : maxPos l = some m) : m ∈ l := by
  induction l generalizing m with
  | nil => simp [maxPos] at h
  | cons x xs ih =>
    simp only [maxPos] at h
    cases hmx : maxPos xs with
    | none =>
      rw [hmx] at h
      cases h
      exact List.mem_cons_self _ _
    | some m' =>
      rw [hmx] at h
      cases h
      rcases max_choice x m' with hc | hc
      · rw [hc]; exact List.mem_cons_self _ _
      · rw [hc]; exact List.mem_cons_of_mem _ (ih m' hmx)

/-- With in-range positions the auto-assigned position lands in `[0, n]`. -/
theorem next_position_bounds (db : TodoDb)
    (hmem : ∀ q ∈ positions db.rows, 0 ≤ q ∧ q < (db.rows.length : Int)) :
    0 ≤ next_position db.rows ∧ next_position db.rows ≤ (db.rows.length : Int) := by
  unfold next_position
  cases hmx : maxPos (db.rows.map (·.position)) with
  | none =>
    have : db.rows.map (·.position) = [] := (maxPos_eq_none _).mp hmx
    have : db.rows = [] := List.map_eq_nil.mp this
    simp [this]
  | some m =>
    have hmmem : m ∈ positions db.rows := maxPos_mem _ m hmx
    have := hmem m hmmem
    simp only [Option.getD_some]
    omega

/-- Conditions under which one call keeps the store invariant (a Bool, so
that concrete instances evaluate): explicit `add` positions within
`[0, count]` and `move_to` targets of stored ids within `[0, count-1]`. -/
def okTodoOp (db : TodoDb) : TodoOp → Bool
  | .add _ _ none => true
  | .add _ _ (some p) => decide (0 ≤ p) && decide (p ≤ (db.rows.length : Int))
  | .remove _ => true
  | .moveTo id p =>
    match find_position db.rows id with
    | none => true
    | some _ => decide (0 ≤ p) && decide (p < (db.rows.length : Int))

def okTodoOps : TodoDb → List TodoOp → Bool
  | _, [] => true
  | db, op :: ops => okTodoOp db op && okTodoOps (applyTodoOp db op) ops

theorem todoInv_add (db : TodoDb) (h : TodoInv db) (title : String)
    (desc : Option String) (pos : Option Int) (now : Nat)
    (hp : 0 ≤ pos.getD (next_position db.rows) ∧
      pos.getD (next_position db.rows) ≤ (db.rows.length : Int)) :
    TodoInv (TodoStore.add db title desc pos now).2 := by
  obtain ⟨hids, hgen, hpnd, hpmem⟩ := h
  set p := pos.getD (next_position db.rows) with hpdef
  have hshift_pos : positions (shift_positions db.rows p 1) =
      (positions db.rows).map (fun q => if p ≤ q then q + 1 else q) := by
    refine positions_map_posfun _ _ _ ?_
    intro r
    by_cases hr : p ≤ r.position <;> simp [shift_positions, hr]
  have hshift_ids : (shift_positions db.rows p 1).map (·.id) = db.rows.map (·.id) := by
    refine ids_map_pres _ _ ?_
    intro r
    by_cases hr : p ≤ r.position <;> simp [shift_positions, hr]
  obtain ⟨hnd', hnot', hbnd'⟩ :=
    int_shift_up (positions db.rows) (db.rows.length : Int) p hpnd hpmem hp.1 hp.2
  have hrows : (TodoStore.add db title desc pos now).2.rows =
      shift_positions db.rows p 1 ++
        [{ id := genId db.nextId, title := title, description := desc,
           completed := false, position := p, created_at := now, updated_at := now }] := rfl
  have hnext : (TodoStore.add db title desc pos now).2.nextId = db.nextId + 1 := rfl
  refine ⟨?_, ?_, ?_, ?_⟩
  · rw [hrows, List.map_append]
    refine List.Nodup.append (hshift_ids ▸ hids) (by simp) ?_
    intro a ha hb
    simp only [List.map_cons, List.map_nil, List.mem_singleton] at hb
    subst hb
    exact genId_fresh_todo db hgen _ hshift_ids ha
  · intro r hr
    rw [hrows] at hr
    rcases List.mem_append.mp hr with hr | hr
    · have : r.id ∈ db.rows.map (·.id) := hshift_ids ▸ List.mem_map_of_mem _ hr
      rcases List.mem_map.mp this with ⟨r', hr', hrid⟩
      rcases hgen r' hr' with ⟨k, hk, hklt⟩
      exact ⟨k, by rw [← hrid, hk], by rw [hnext]; omega⟩
    · simp only [List.mem_singleton] at hr
      subst hr
      exact ⟨db.nextId, rfl, by rw [hnext]; omega⟩
  · rw [hrows]
    show (positions (shift_positions db.rows p 1 ++ [_])).Nodup
    rw [positions, List.map_append]
    refine List.Nodup.append ?_ (by simp) ?_
    · rw [← positions, hshift_pos]; exact hnd'
    · intro a ha hb
      simp only [List.map_cons, List.map_nil, List.mem_singleton] at hb
      subst hb
      rw [← positions, hshift_pos] at ha
      exact hnot' ha
  · intro q hq
    rw [hrows] at hq ⊢
    rw [positions, List.map_append] at hq
    simp only [List.length_append, List.length_cons, List.length_nil, shift_positions,
      List.length_map]
    rcases List.mem_append.mp hq with hq | hq
    · rw [← positions, hshift_pos] at hq
      have := hbnd' q hq
      push_cast
      omega
    · simp only [List.map_cons, List.map_nil, List.mem_singleton] at hq
      subst hq
      push_cast
      omega

theorem todoInv_remove (db : TodoDb) (h : TodoInv db) (id : String)
    (db' : TodoDb) (hok : TodoStore.remove db id = .ok db') :
    TodoInv db' := by
  obtain ⟨hids, hgen, hpnd, hpmem⟩ := h
  unfold TodoStore.remove at hok
  cases hfind : db.rows.find? (fun r => r.id == id) with
  | none =>
    -- nothing matches: the DELETE removes nothing and the call errors
    have hall : ∀ r ∈ db.rows, ¬ (r.id == id) = true := List.find?_eq_none.mp hfind
    have hfilter : db.rows.filter (fun r => !(r.id == id)) = db.rows := by
      rw [List.filter_eq_self]
      intro r hr
      simp [hall r hr]
    rw [hfilter] at hok
    simp at hok
  | some r0 =>
    obtain ⟨hr0, l1, l2, hdecomp, h1, h2⟩ := find_row_decomp db.rows id r0 hids hfind
    have hfilter : db.rows.filter (fun r => !(r.id == id)) = l1 ++ l2 := by
      rw [hdecomp]
      exact filter_decomp l1 l2 r0 id hr0 h1 h2
    have hlen : db.rows.length = l1.length + 1 + l2.length := by
      rw [hdecomp]; simp; omega
    have hlenne : ((l1 ++ l2).length == db.rows.length) = false := by
      simp only [List.length_append, beq_eq_false_iff_ne, ne_eq]
      omega
    have hfp : find_position db.rows id = some r0.position := by
      rw [find_position, hfind]; rfl
    rw [hfilter] at hok
    simp only [hfp, hlenne, Bool.false_eq_true, if_false, Except.ok.injEq] at hok
    subst hok
    -- positions of the two kept segments
    have hP : positions db.rows = positions l1 ++ r0.position :: positions l2 := by
      rw [hdecomp, positions, List.map_append]; rfl
    obtain ⟨hSnd, hSmem, hcb⟩ := middle_split (positions l1) (positions l2) r0.position
      (db.rows.length : Int) (hP ▸ hpnd) (fun q hq => hpmem q (hP ▸ hq))
    have hS : positions l1 ++ positions l2 = positions (l1 ++ l2) := by
      simp [positions]
    have hshift_pos : positions (shift_positions (l1 ++ l2) (r0.position + 1) (-1)) =
        (positions (l1 ++ l2)).map
          (fun q => if r0.position + 1 ≤ q then q - 1 else q) := by
      refine positions_map_posfun _ _ _ ?_
      intro r
      by_cases hr : r0.position + 1 ≤ r.position <;> simp [shift_positions, hr] <;> omega
    have hshift_ids : (shift_positions (l1 ++ l2) (r0.position + 1) (-1)).map (·.id) =
        (l1 ++ l2).map (·.id) := by
      refine ids_map_pres _ _ ?_
      intro r
      by_cases hr : r0.position + 1 ≤ r.position <;> simp [shift_positions, hr]
    obtain ⟨hnd', hbnd'⟩ := int_shift_down (positions (l1 ++ l2)) (db.rows.length : Int)
      r0.position (hS ▸ hSnd) (fun q hq => hSmem q (hS ▸ hq)) hcb.1 hcb.2
    have hsub : List.Sublist ((l1 ++ l2).map (·.id)) (db.rows.map (·.id)) := by
      rw [hdecomp, List.map_append, List.map_append, List.map_cons]
      exact List.Sublist.append_left (List.sublist_cons_of_sublist _ (List.Sublist.refl _)) _
    constructor
    · exact hshift_ids ▸ List.Nodup.sublist hsub hids
    · intro r hr
      have : r.id ∈ (l1 ++ l2).map (·.id) := hshift_ids ▸ List.mem_map_of_mem _ hr
      rcases List.mem_map.mp this with ⟨r', hr', hrid⟩
      have hr'' : r' ∈ db.rows := by
        rw [hdecomp]
        rcases List.mem_append.mp hr' with h | h
        · exact List.mem_append.mpr (Or.inl h)
        · exact List.mem_append.mpr (Or.inr (List.mem_cons_of_mem _ h))
      rcases hgen r' hr'' with ⟨k, hk, hklt⟩
      exact ⟨k, by rw [← hrid, hk], hklt⟩
    · show (positions (shift_positions (l1 ++ l2) (r0.position + 1) (-1))).Nodup
      rw [hshift_pos]; exact hnd'
    · intro q hq
      have hq' : q ∈ positions (shift_positions (l1 ++ l2) (r0.position + 1) (-1)) := hq
      rw [hshift_pos] at hq'
      have := hbnd' q hq'
      show 0 ≤ q ∧ q < ((shift_positions (l1 ++ l2) (r0.position + 1) (-1)).length : Int)
      have hlen' : ((shift_positions (l1 ++ l2) (r0.position + 1) (-1)).length : Int) =
          (db.rows.length : Int) - 1 := by
        simp only [shift_positions, List.length_map, List.length_append]
        push_cast
        omega
      rw [hlen']
      omega

/-- Shape of the table after the two `move_to` updates: the ranged position
update (`hrow`, acting on positions through `f`) followed by the per-id
update assigning `new`.  Computed on the decomposition at the moved row. -/
theorem move_map_shape (rows l1 l2 : List TodoItem) (r0 : TodoItem) (id : String)
    (new : Int) (now : Nat)
    (hdecomp : rows = l1 ++ r0 :: l2)
    (h1 : ∀ r ∈ l1, (r.id == id) = false) (h2 : ∀ r ∈ l2, (r.id == id) = false)
    (hr0 : r0.id = id)
    (hrow : TodoItem → TodoItem) (f : Int → Int)
    (hrow_id : ∀ r, (hrow r).id = r.id)
    (hrow_pos : ∀ r, (hrow r).position = f r.position) :
    positions ((rows.map hrow).map (fun r =>
        if r.id == id then { r with position := new, updated_at := now } else r)) =
      (positions l1).map f ++ new :: (positions l2).map f ∧
    ((rows.map hrow).map (fun r =>
        if r.id == id then { r with position := new, updated_at := now } else r)).map (·.id) =
      rows.map (·.id) ∧
    ((rows.map hrow).map (fun r =>
        if r.id == id then { r with position := new, updated_at := now } else r)).length =
      rows.length := by
  have hsetid : ∀ r : TodoItem,
      ((if r.id == id then { r with position := new, updated_at := now } else r) : TodoItem).id
        = r.id := by
    intro r
    by_cases hc : (r.id == id) = true <;> simp [hc]
  have hl1f : ∀ r ∈ l1.map hrow, (r.id == id) = false := by
    intro r hr
    rcases List.mem_map.mp hr with ⟨r', hr', rfl⟩
    rw [hrow_id r']
    exact h1 r' hr'
  have hl2f : ∀ r ∈ l2.map hrow, (r.id == id) = false := by
    intro r hr
    rcases List.mem_map.mp hr with ⟨r', hr', rfl⟩
    rw [hrow_id r']
    exact h2 r' hr'
  have hsetr0 : (if (hrow r0).id == id then
        { hrow r0 with position := new, updated_at := now } else hrow r0) =
      { hrow r0 with position := new, updated_at := now } := by
    rw [hrow_id r0, hr0]
    simp
  have hX : (rows.map hrow).map (fun r =>
      if r.id == id then { r with position := new, updated_at := now } else r) =
      l1.map hrow ++ ({ hrow r0 with position := new, updated_at := now }) :: l2.map hrow := by
    rw [hdecomp]
    simp only [List.map_append, List.map_cons]
    rw [map_setif_of_not _ _ _ hl1f, map_setif_of_not _ _ _ hl2f, hsetr0]
  refine ⟨?_, ?_, ?_⟩
  · rw [hX]
    have hsplit : positions (l1.map hrow ++
        ({ hrow r0 with position := new, updated_at := now }) :: l2.map hrow) =
        positions (l1.map hrow) ++ new :: positions (l2.map hrow) := by
      simp [positions]
    rw [hsplit, positions_map_posfun l1 hrow f hrow_pos,
      positions_map_posfun l2 hrow f hrow_pos]
  · rw [ids_map_pres _ _ hsetid, ids_map_pres _ _ hrow_id]
  · simp [hX, hdecomp]

theorem todoInv_move (db : TodoDb) (h : TodoInv db) (id : String) (new : Int)
    (now : Nat) (db' : TodoDb) (hok : TodoStore.move_to db id new now = .ok db')
    (hrange : 0 ≤ new ∧ new < (db.rows.length : Int)) :
    TodoInv db' := by
  obtain ⟨hids, hgen, hpnd, hpmem⟩ := h
  unfold TodoStore.move_to at hok
  cases hfind : db.rows.find? (fun r => r.id == id) with
  | none =>
    have hfp : find_position db.rows id = none := by
      rw [find_position, hfind]; rfl
    rw [hfp] at hok
    simp at hok
  | some r0 =>
    have hfp : find_position db.rows id = some r0.position := by
      rw [find_position, hfind]; rfl
    rw [hfp] at hok
    by_cases heq : r0.position = new
    · simp only [heq, beq_self_eq_true, if_true, Except.ok.injEq] at hok
      subst hok
      exact ⟨hids, hgen, hpnd, hpmem⟩
    · have hbeqf : (r0.position == new) = false := by simp [heq]
      simp only [hbeqf, Bool.false_eq_true, if_false, Except.ok.injEq] at hok
      obtain ⟨hr0, l1, l2, hdecomp, h1, h2⟩ := find_row_decomp db.rows id r0 hids hfind
      have hP : positions db.rows = positions l1 ++ r0.position :: positions l2 := by
        rw [hdecomp, positions, List.map_append]; rfl
      obtain ⟨hSnd, hSmem, hcb⟩ := middle_split (positions l1) (positions l2) r0.position
        (db.rows.length : Int) (hP ▸ hpnd) (fun q hq => hpmem q (hP ▸ hq))
      by_cases hgt : r0.position < new
      · -- moving to a higher position
        rw [if_pos (show new > r0.position from hgt)] at hok
        subst hok
        obtain ⟨hpos, hidsX, hlenX⟩ := move_map_shape db.rows l1 l2 r0 id new now
          hdecomp h1 h2 hr0
          (fun r => if r0.position < r.position ∧ r.position ≤ new then
            { r with position := r.position - 1 } else r)
          (fun q => if r0.position < q ∧ q ≤ new then q - 1 else q)
          (by intro r; by_cases hc : r0.position < r.position ∧ r.position ≤ new <;> simp [hc])
          (by intro r; by_cases hc : r0.position < r.position ∧ r.position ≤ new <;> simp [hc])
        obtain ⟨hnd', hnot', hbnd'⟩ := int_move_up (positions l1 ++ positions l2)
          (db.rows.length : Int) r0.position new hSnd hSmem hgt hcb.1 hrange.2
        refine ⟨hidsX ▸ hids, ?_, ?_, ?_⟩
        · intro r hr
          have : r.id ∈ db.rows.map (·.id) := hidsX ▸ List.mem_map_of_mem _ hr
          rcases List.mem_map.mp this with ⟨r', hr', hrid⟩
          rcases hgen r' hr' with ⟨k, hk, hklt⟩
          exact ⟨k, by rw [← hrid, hk], hklt⟩
        · show (positions ((db.rows.map
            (fun r => if r0.position < r.position ∧ r.position ≤ new then
            { r with position := r.position - 1 } else r)).map
            (fun r => if r.id == id then
              { r with position := new, updated_at := now } else r))).Nodup
          rw [hpos]
          refine middle_assemble _ _ _ ?_ ?_
          · rw [← List.map_append]
            exact hnd'
          · rw [← List.map_append]
            exact hnot'
        · intro q hq
          have hq' : q ∈ positions ((db.rows.map
              (fun r => if r0.position < r.position ∧ r.position ≤ new then
            { r with position := r.position - 1 } else r)).map
              (fun r => if r.id == id then
                { r with position := new, updated_at := now } else r)) := hq
          rw [hpos] at hq'
          have hqb : 0 ≤ q ∧ q < (db.rows.length : Int) := by
            rcases List.mem_append.mp hq' with hq'' | hq''
            · refine hbnd' q ?_
              rw [List.map_append]
              exact List.mem_append_left _ hq''
            · rcases List.mem_cons.mp hq'' with rfl | hq''
              · exact hrange
              · refine hbnd' q ?_
                rw [List.map_append]
                exact List.mem_append_right _ hq''
          simpa using hqb
      · -- moving to a lower position
        have hlt : new < r0.position := by omega
        rw [if_neg (show ¬ new > r0.position from hgt)] at hok
        subst hok
        obtain ⟨hpos, hidsX, hlenX⟩ := move_map_shape db.rows l1 l2 r0 id new now
          hdecomp h1 h2 hr0
          (fun r => if new ≤ r.position ∧ r.position < r0.position then
            { r with position := r.position + 1 } else r)
          (fun q => if new ≤ q ∧ q < r0.position then q + 1 else q)
          (by intro r; by_cases hc : new ≤ r.position ∧ r.position < r0.position <;> simp [hc])
          (by intro r; by_cases hc : new ≤ r.position ∧ r.position < r0.position <;> simp [hc])
        obtain ⟨hnd', hnot', hbnd'⟩ := int_move_down (positions l1 ++ positions l2)
          (db.rows.length : Int) r0.position new hSnd hSmem hlt hrange.1 hcb.2
        refine ⟨hidsX ▸ hids, ?_, ?_, ?_⟩
        · intro r hr
          have : r.id ∈ db.rows.map (·.id) := hidsX ▸ List.mem_map_of_mem _ hr
          rcases List.mem_map.mp this with ⟨r', hr', hrid⟩
          rcases hgen r' hr' with ⟨k, hk, hklt⟩
          exact ⟨k, by rw [← hrid, hk], hklt⟩
        · show (positions ((db.rows.map
            (fun r => if new ≤ r.position ∧ r.position < r0.position then
            { r with position := r.position + 1 } else r)).map
            (fun r => if r.id == id then
              { r with position := new, updated_at := now } else r))).Nodup
          rw [hpos]
          refine middle_assemble _ _ _ ?_ ?_
          · rw [← List.map_append]
            exact hnd'
          · rw [← List.map_append]
            exact hnot'
        · intro q hq
          have hq' : q ∈ positions ((db.rows.map
              (fun r => if new ≤ r.position ∧ r.position < r0.position then
            { r with position := r.position + 1 } else r)).map
              (fun r => if r.id == id then
                { r with position := new, updated_at := now } else r)) := hq
          rw [hpos] at hq'
          have hqb : 0 ≤ q ∧ q < (db.rows.length : Int) := by
            rcases List.mem_append.mp hq' with hq'' | hq''
            · refine hbnd' q ?_
              rw [List.map_append]
              exact List.mem_append_left _ hq''
            · rcases List.mem_cons.mp hq'' with rfl | hq''
              · exact hrange
              · refine hbnd' q ?_
                rw [List.map_append]
                exact List.mem_append_right _ hq''
          simpa using hqb

theorem todoInv_apply (db : TodoDb) (op : TodoOp) (h : TodoInv db)
    (hok : okTodoOp db op = true) : TodoInv (applyTodoOp db op) := by
  cases op with
  | add t d pos =>
    cases pos with
    | none =>
      exact todoInv_add db h t d none 0 (by
        simpa using next_position_bounds db h.pos_mem)
    | some p =>
      simp only [okTodoOp, Bool.and_eq_true, decide_eq_true_eq] at hok
      exact todoInv_add db h t d (some p) 0 (by simpa using hok)
  | remove id =>
    rcases hrem : TodoStore.remove db id with e | db'
    · simp only [applyTodoOp, hrem]
      exact h
    · simp only [applyTodoOp, hrem]
      exact todoInv_remove db h id db' hrem
  | moveTo id p =>
    rcases hmv : TodoStore.move_to db id p 0 with e | db'
    · simp only [applyTodoOp, hmv]
      exact h
    · simp only [applyTodoOp, hmv]
      cases hfp : find_position db.rows id with
      | none =>
        exfalso
        unfold TodoStore.move_to at hmv
        rw [hfp] at hmv
        simp at hmv
      | some cur =>
        simp only [okTodoOp, hfp, Bool.and_eq_true, decide_eq_true_eq] at hok
        exact todoInv_move db h id p 0 db' hmv hok

theorem todoInv_foldl (ops : List TodoOp) :
    ∀ db : TodoDb, TodoInv db → okTodoOps db ops = true →
      TodoInv (ops.foldl applyTodoOp db) := by
  induction ops with
  | nil => intro db h _; exact h
  | cons op ops ih =>
    intro db h hok
    simp only [okTodoOps, Bool.and_eq_true] at hok
    exact ih _ (todoInv_apply db op h hok.1) hok.2

/-- Pigeonhole: distinct in-range positions fill the whole range. -/
theorem todoInv_contiguous (db : TodoDb) (h : TodoInv db) : contiguous db.rows := by
  obtain ⟨-, -, hnd, hmem⟩ := h
  refine ⟨hnd, ?_⟩
  intro k
  constructor
  · exact fun hk => hmem k hk
  · intro hk
    have hcard : (positions db.rows).toFinset.card = db.rows.length := by
      rw [List.toFinset_card_of_nodup hnd]
      simp [positions]
    have hsub : (positions db.rows).toFinset ⊆
        Finset.Ico (0 : Int) (db.rows.length : Int) := by
      intro x hx
      rw [List.mem_toFinset] at hx
      exact Finset.mem_Ico.mpr (hmem x hx)
    have hico : (Finset.Ico (0 : Int) (db.rows.length : Int)).card = db.rows.length := by
      rw [Int.card_Ico]
      simp
    have heq : (positions db.rows).toFinset =
        Finset.Ico (0 : Int) (db.rows.length : Int) :=
      Finset.eq_of_subset_of_card_le hsub (by rw [hico, hcard])
    have : k ∈ (positions db.rows).toFinset := by
      rw [heq]
      exact Finset.mem_Ico.mpr hk
    exact List.mem_toFinset.mp this

/-! ## Claim theorems: C1, C2, C9 -/

/-- C1 (counterexample): the claim as stated is false.  A single
`add("a", none, position := 1)` on the empty store leaves the position set
`{1}`, not `{0}`: `TodoStore::add` shifts and inserts at any requested
position without clamping it to `[0, count]`. -/
theorem C1_contiguity_counterexample :
    ¬ contiguous (runTodoOps [TodoOp.add "a" none (some 1)]).rows := by
  intro hcon
  obtain ⟨-, hmem⟩ := hcon
  have hrows : (runTodoOps [TodoOp.add "a" none (some 1)]).rows =
      [{ id := genId 0, title := "a", description := none, completed := false,
         position := 1, created_at := 0, updated_at := 0 }] := rfl
  have h0 := (hmem 0).mpr (by rw [hrows]; norm_num)
  rw [hrows] at h0
  simp [positions] at h0

/-- C1 (amended): for every sequence of `add`/`remove`/`move_to` starting
from the empty store — provided every explicit `add` position lies in
`[0, count]` and every `move_to` target for a stored id lies in
`[0, count-1]` at the time of the call — the set of stored positions equals
the contiguous range `{0, …, count-1}` with no duplicates and no gaps. -/
theorem C1_contiguity_amended (ops : List TodoOp)
    (hok : okTodoOps emptyTodoDb ops = true) :
    contiguous (runTodoOps ops).rows :=
  todoInv_contiguous _ (todoInv_foldl ops emptyTodoDb todoInv_empty hok)

/-- Witness for C1 (amended) at a concrete in-range operation sequence. -/
theorem C1_contiguity_witness :
    contiguous (runTodoOps [TodoOp.add "a" none none, TodoOp.add "b" none (some 0),
      TodoOp.moveTo (genId 0) 1, TodoOp.remove (genId 1)]).rows :=
  C1_contiguity_amended _ (by decide)

/-- C2: after any sequence of `add`/`remove`/`set_default` on an initially
empty build command store at most one row has `is_default = true`, and the
very first `add` on an empty store returns a row with `is_default = true`. -/
theorem C2_default_uniqueness :
    (∀ ops : List BuildOp, defaultCount (runBuildOps ops).rows ≤ 1) ∧
    ∀ (n c : String) (w : Option String) (now : Nat),
      ((BuildCommandStore.add emptyBuildDb n c w now).1).is_default = true := by
  constructor
  · intro ops
    exact (buildInv_foldl ops emptyBuildDb buildInv_empty).dflt
  · intro n c w now
    rfl

/-- C9: `move_to(id, current_position)` succeeds and leaves the store —
every row, every field — unchanged. -/
theorem C9_move_to_noop (db : TodoDb) (id : String) (p : Int) (now : Nat)
    (h : find_position db.rows id = some p) :
    TodoStore.move_to db id p now = .ok db := by
  unfold TodoStore.move_to
  rw [h]
  simp

/-- Witness for C9 at a concrete one-row store. -/
theorem C9_move_to_noop_witness :
    TodoStore.move_to
      { rows := [{ id := "a", title := "t", description := none, completed := false,
                   position := 0, created_at := 0, updated_at := 0 }], nextId := 5 }
      "a" 0 7 =
    .ok { rows := [{ id := "a", title := "t", description := none, completed := false,
                     position := 0, created_at := 0, updated_at := 0 }], nextId := 5 } :=
  C9_move_to_noop _ "a" 0 7 (by decide)

/-! ## Event bus (`app_state.rs`) and `ToolCallEvent` (`lib.rs`) -/

/-- `ToolCallEvent` from `lib.rs`. -/
structure ToolCallEvent where
  id : String
  timestamp : String
  tool_name : String
  project_id : String
  arguments : JsonVal
  success : Bool
  content : String
  duration_ms : Nat

/-- `AppState::record_event`: insert at the front, truncate to 100. -/
def record_event (history : List ToolCallEvent) (event : ToolCallEvent) :
    List ToolCallEvent :=
  (event :: history).take 100

/-- `AppState::get_history`: a snapshot of the history list. -/
def get_history (history : List ToolCallEvent) : List ToolCallEvent := history

/-- Recording a sequence of events against an initially empty history (the
broadcast-channel publication carries no state the history reads). -/
def runRecordEvents (events : List ToolCallEvent) : List ToolCallEvent :=
  events.foldl record_event []

theorem take_append_take {α : Type} (A B : List α) :
    (A ++ B.take 100).take 100 = (A ++ B).take 100 := by
  rw [List.take_append_eq_append_take, List.take_append_eq_append_take, List.take_take]
  congr 1
  congr 1
  omega

theorem record_event_foldl (events : List ToolCallEvent) :
    ∀ h : List ToolCallEvent, h.length ≤ 100 →
      events.foldl record_event h = (events.reverse ++ h).take 100 := by
  induction events with
  | nil =>
    intro h hlen
    simp [List.take_of_length_le hlen]
  | cons e es ih =>
    intro h hlen
    have hstep : List.foldl record_event h (e :: es) =
        List.foldl record_event ((e :: h).take 100) es := rfl
    rw [hstep, ih _ (by simp), take_append_take, List.reverse_cons,
      List.append_assoc]
    rfl

/-- C7: after recording `n` events the history holds exactly `min n 100`
events — the most recently recorded ones, newest first. -/
theorem C7_event_bounding (events : List ToolCallEvent) :
    get_history (runRecordEvents events) = events.reverse.take 100 ∧
    (get_history (runRecordEvents events)).length = min events.length 100 := by
  have h : runRecordEvents events = events.reverse.take 100 := by
    rw [runRecordEvents, record_event_foldl events [] (by simp)]
    simp
  refine ⟨h, ?_⟩
  rw [get_history, h]
  simp [Nat.min_comm]

/-! ## Stdio-to-HTTP proxy (`mcp_proxy.rs`)

The HTTP exchange (`forward_request`) is an external effect; one loop
iteration is modelled over its outcome: `.ok body` is the raw response body
text, `.error errJson` the error payload built when the exchange fails. -/

/-- `is_notification` from `mcp_proxy.rs`:
`request.get("id").is_none() || request.get("id") == Some(&Value::Null)`. -/
def is_notification (request : JsonVal) : Bool :=
  match request.getField "id" with
  | none => true
  | some .null => true
  | some _ => false

/-- One iteration of the `run_stdio_proxy` loop for an already-parsed
request line: the request is always forwarded; the lines written to stdout
are returned. -/
def proxy_step (request : JsonVal) (forward : Except String String) : List String :=
  if is_notification request then []
  else
    [match forward with
     | .ok text => text
     | .error errJson => errJson]

/-- C8: a proxied request whose `id` is absent or null produces no output
line (the response is discarded); a request with a non-null `id` whose
forwarded HTTP exchange returns body `body` produces exactly one output
line equal to `body`. -/
theorem C8_notification_forwarding (request : JsonVal)
    (forward : Except String String) (body : String) :
    ((request.getField "id" = none ∨ request.getField "id" = some JsonVal.null) →
      proxy_step request forward = []) ∧
    ((∀ v, request.getField "id" = some v → v ≠ JsonVal.null) →
      request.getField "id" ≠ none →
      forward = .ok body →
      proxy_step request forward = [body]) := by
  constructor
  · intro hid
    have hnotif : is_notification request = true := by
      rcases hid with hid | hid <;> simp [is_notification, hid]
    simp [proxy_step, hnotif]
  · intro hnn hne hfwd
    have hnotif : is_notification request = false := by
      unfold is_notification
      cases hv : request.getField "id" with
      | none => exact absurd hv hne
      | some v =>
        cases v with
        | null => exact absurd rfl (hnn _ hv)
        | bool b => rfl
        | num n => rfl
        | str s => rfl
        | arr xs => rfl
        | obj fs => rfl
    simp [proxy_step, hnotif, hfwd]

/-- Witness for C8: one request with numeric id, one null-id notification. -/
theorem C8_notification_forwarding_witness :
    proxy_step (JsonVal.obj [("jsonrpc", JsonVal.str "2.0"),
      ("method", JsonVal.str "tools/list"), ("id", JsonVal.num 1)])
      (.ok "RESPONSE") = ["RESPONSE"] ∧
    proxy_step (JsonVal.obj [("jsonrpc", JsonVal.str "2.0"),
      ("method", JsonVal.str "tools/list"), ("id", JsonVal.null)])
      (.ok "RESPONSE") = [] := by
  constructor
  · refine (C8_notification_forwarding _ (.ok "RESPONSE") "RESPONSE").2 ?_ ?_ rfl
    · intro v hv
      rw [show (JsonVal.obj [("jsonrpc", JsonVal.str "2.0"),
        ("method", JsonVal.str "tools/list"), ("id", JsonVal.num 1)]).getField "id" =
          some (JsonVal.num 1) from rfl] at hv
      cases hv
      intro hn
      cases hn
    · intro hv
      rw [show (JsonVal.obj [("jsonrpc", JsonVal.str "2.0"),
        ("method", JsonVal.str "tools/list"), ("id", JsonVal.num 1)]).getField "id" =
          some (JsonVal.num 1) from rfl] at hv
      cases hv
  · exact (C8_notification_forwarding _ (.ok "RESPONSE") "RESPONSE").1 (Or.inr rfl)

/-! ## Tool system (`tools/mod.rs`, `tools/file.rs`)

A tool executor performs filesystem IO in the source; the embedding carries
the executor as an oracle function inside the `Tool` record. -/

/-- `ToolResult` from `tools/mod.rs`. -/
structure ToolResult where
  success : Bool
  content : String
  data : Option JsonVal

/-- `ToolDefinition` from `tools/mod.rs`. -/
structure ToolDefinition where
  name : String
  description : String
  input_schema : JsonVal

/-- The `Tool` trait object: definition data plus the `execute` capability. -/
structure Tool where
  name : String
  description : String
  input_schema : JsonVal
  execute : JsonVal → Except ToolError ToolResult

def Tool.definition (t : Tool) : ToolDefinition :=
  { name := t.name, description := t.description, input_schema := t.input_schema }

/-- `ToolRegistry::get` (name-keyed table lookup). -/
def registryGet (reg : List Tool) (name : String) : Option Tool :=
  reg.find? (fun t => t.name == name)

/-- `ToolRegistry::list`.  The source iterates a `HashMap` in unspecified
order; the model fixes registration order. -/
def registryList (reg : List Tool) : List ToolDefinition :=
  reg.map Tool.definition

/-- serde serialization of `ToolDefinition` (struct field order). -/
def toolDefinitionJson (d : ToolDefinition) : JsonVal :=
  .obj [("name", .str d.name), ("description", .str d.description),
        ("input_schema", d.input_schema)]

/-- `read_file` input schema from `tools/file.rs`. -/
def readFileSchema : JsonVal :=
  .obj [("type", .str "object"),
        ("properties", .obj [("path", .obj [("type", .str "string"),
          ("description", .str "The absolute path to the file to read")])]),
        ("required", .arr [.str "path"])]

/-- `write_file` input schema from `tools/file.rs`. -/
def writeFileSchema : JsonVal :=
  .obj [("type", .str "object"),
        ("properties", .obj [
          ("path", .obj [("type", .str "string"),
            ("description", .str "The absolute path to the file to write")]),
          ("content", .obj [("type", .str "string"),
            ("description", .str "The content to write to the file")])]),
        ("required", .arr [.str "path", .str "content"])]

/-- `list_directory` input schema from `tools/file.rs`. -/
def listDirectorySchema : JsonVal :=
  .obj [("type", .str "object"),
        ("properties", .obj [
          ("path", .obj [("type", .str "string"),
            ("description", .str "The absolute path to the directory to list")]),
          ("recursive", .obj [("type", .str "boolean"),
            ("description", .str "Whether to list recursively"),
            ("default", .bool false)])]),
        ("required", .arr [.str "path"])]

/-- `search_files` input schema from `tools/file.rs`. -/
def searchFilesSchema : JsonVal :=
  .obj [("type", .str "object"),
        ("properties", .obj [
          ("path", .obj [("type", .str "string"),
            ("description", .str "The directory to search in")]),
          ("pattern", .obj [("type", .str "string"),
            ("description", .str "The pattern to search for")]),
          ("recursive", .obj [("type", .str "boolean"),
            ("description", .str "Whether to search recursively"),
            ("default", .bool true)])]),
        ("required", .arr [.str "path", .str "pattern"])]

/-- `create_standard_registry` from `tools/mod.rs`: the four filesystem
tools, with their raw IO (`fsExec`, keyed by tool name) as an oracle. -/
def create_standard_registry
    (fsExec : String → JsonVal → Except ToolError ToolResult) : List Tool :=
  [{ name := "read_file",
     description := "Read the contents of a file. Returns the file content as text. Will not read binary files. Limited to 1MB.",
     input_schema := readFileSchema, execute := fsExec "read_file" },
   { name := "write_file",
     description := "Write content to a file. Creates the file if it doesn\x27t exist, overwrites if it does. Creates parent directories as needed.",
     input_schema := writeFileSchema, execute := fsExec "write_file" },
   { name := "list_directory",
     description := "List the contents of a directory. Returns files and subdirectories.",
     input_schema := listDirectorySchema, execute := fsExec "list_directory" },
   { name := "search_files",
     description := "Search for files containing a pattern. Supports simple string search. Returns matching file paths with line numbers.",
     input_schema := searchFilesSchema, execute := fsExec "search_files" }]

/-! ## Standalone MCP dispatcher (`mcp.rs`) -/

/-- `PROTOCOL_VERSION` (`mcp.rs`) and `MCP_PROTOCOL_VERSION`
(`http_server.rs`) carry the same constant. -/
def PROTOCOL_VERSION : String := "2024-11-05"

/-- Models `env!("CARGO_PKG_VERSION")`: the crate manifest is not under
`src/`; both dispatcher realizations embed this same compile-time constant,
and no claim depends on its value. -/
def cargoPkgVersion : String := "0.1.0"

/-- The `initialize` result payload; `mcp.rs` and `http_server.rs` build
this identical `json!` literal. -/
def initializeResultJson : JsonVal :=
  .obj [("protocolVersion", .str PROTOCOL_VERSION),
        ("capabilities", .obj [("tools", .obj []), ("resources", .obj [])]),
        ("serverInfo", .obj [("name", .str "aiharness"),
          ("version", .str cargoPkgVersion)])]

/-- `ServerState` from `mcp.rs`. -/
inductive ServerState where
  | uninitialized
  | initialized
  | shuttingDown
deriving DecidableEq

/-- `McpServer` from `mcp.rs`: lifecycle state, tool registry, and the
snapshot of tracked-file paths its `ContextStore` would list (that store is
external SQLite storage reached only through `list_files`). -/
structure McpServer where
  state : ServerState
  tool_registry : List Tool
  context_files : List String

/-- `McpServer::handle_initialize`. -/
def McpServer.handle_init (srv : McpServer) :
    Except McpError JsonVal × McpServer :=
  if srv.state = .initialized then
    (.error .alreadyInitialized, srv)
  else
    (.ok initializeResultJson, { srv with state := .initialized })

/-- `McpServer::handle_tools_list`. -/
def McpServer.handle_tools_list (srv : McpServer) : Except McpError JsonVal :=
  if srv.state ≠ .initialized then
    .error .notInitialized
  else
    .ok (.obj [("tools", .arr ((registryList srv.tool_registry).map toolDefinitionJson))])

/-- `McpServer::handle_tools_call`. -/
def McpServer.handle_tools_call (srv : McpServer) (params : Option JsonVal) :
    Except McpError JsonVal :=
  if srv.state ≠ .initialized then
    .error .notInitialized
  else
    match params with
    | none => .error (.missingParameter "params")
    | some params =>
      match (params.getField "name").bind JsonVal.asStr with
      | none => .error (.missingParameter "name")
      | some name =>
        let arguments := (params.getField "arguments").getD (.obj [])
        match registryGet srv.tool_registry name with
        | none => .error (.toolNotFound name)
        | some tool =>
          match tool.execute arguments with
          | .error e => .error (.toolExecutionFailed (ToolError.toMessage e))
          | .ok result =>
            .ok (.obj [
              ("content", .arr [.obj [("type", .str "text"),
                ("text", .str result.content)]]),
              ("isError", .bool (!result.success))])

/-- Models `Path::file_name` with the `unwrap_or("unknown")` fallback used
by `resources/list` (path handling itself is an external collaborator). -/
def file_name_display (path : String) : String :=
  match (path.splitOn "/").reverse with
  | [] => "unknown"
  | last :: _ => if last = "" then "unknown" else last

/-- `McpServer::handle_resources_list`. -/
def McpServer.handle_resources_list (srv : McpServer) : Except McpError JsonVal :=
  if srv.state ≠ .initialized then
    .error .notInitialized
  else
    .ok (.obj [("resources", .arr (srv.context_files.map (fun f =>
      .obj [("uri", .str ("file://" ++ f)),
            ("name", .str (file_name_display f)),
            ("mimeType", .str "text/plain")])))])

/-- `uri.strip_prefix("file://")`. -/
def strip_file_scheme (uri : String) : Option String :=
  if "file://".isPrefixOf uri then some (uri.drop 7) else none

/-- `McpServer::handle_resources_read`. -/
def McpServer.handle_resources_read (srv : McpServer) (params : Option JsonVal) :
    Except McpError JsonVal :=
  if srv.state ≠ .initialized then
    .error .notInitialized
  else
    match params with
    | none => .error (.missingParameter "params")
    | some params =>
      match (params.getField "uri").bind JsonVal.asStr with
      | none => .error (.missingParameter "uri")
      | some uri =>
        match strip_file_scheme uri with
        | none => .error (.invalidParameter "uri" uri)
        | some path =>
          match registryGet srv.tool_registry "read_file" with
          | none => .error (.internalError "read_file tool not found")
          | some read_file =>
            match read_file.execute (.obj [("path", .str path)]) with
            | .error e => .error (.resourceNotFound (ToolError.toMessage e))
            | .ok result =>
              .ok (.obj [("contents", .arr [.obj [
                ("uri", .str uri),
                ("mimeType", .str "text/plain"),
                ("text", .str result.content)]])])

/-- Shared JSON-RPC request shape (`mcp.rs` and `http_server.rs` declare
identical `Deserialize` structs). -/
structure JsonRpcRequest where
  jsonrpc : String
  method : String
  params : Option JsonVal
  id : Option JsonVal

/-- Shared JSON-RPC error shape.  (`mcp.rs` adds a `data` field that every
constructor leaves `None` and serialization then skips; `http_server.rs`
has no such field — the serialized forms coincide.) -/
structure JsonRpcError where
  code : Int
  message : String
deriving DecidableEq

/-- `JsonRpcError::parse_error` (-32700). -/
def JsonRpcError.parse_error (message : String) : JsonRpcError :=
  { code := -32700, message := message }

/-- `JsonRpcError::invalid_request` (-32600). -/
def JsonRpcError.invalid_request (message : String) : JsonRpcError :=
  { code := -32600, message := message }

/-- `JsonRpcError::method_not_found` (-32601). -/
def JsonRpcError.method_not_found (method : String) : JsonRpcError :=
  { code := -32601, message := "Method not found: " ++ method }

/-- `JsonRpcError::invalid_params` (-32602). -/
def JsonRpcError.invalid_params (message : String) : JsonRpcError :=
  { code := -32602, message := message }

/-- `JsonRpcError::internal_error` (-32603). -/
def JsonRpcError.internal_error (message : String) : JsonRpcError :=
  { code := -32603, message := message }

/-- Shared JSON-RPC response shape. -/
structure JsonRpcResponse where
  jsonrpc : String
  result : Option JsonVal
  error : Option JsonRpcError
  id : Option JsonVal

/-- `McpServer::handle_request` from `mcp.rs`: version check, method
dispatch, and the uniform wrapping of every handler error into
`JsonRpcError::internal_error` (code -32603). -/
def McpServer.handle_request (srv : McpServer) (req : JsonRpcRequest) :
    JsonRpcResponse × McpServer :=
  if req.jsonrpc ≠ "2.0" then
    ({ jsonrpc := "2.0", result := none,
       error := some (.invalid_request "Invalid JSON-RPC version"),
       id := req.id }, srv)
  else if req.method = "notifications/initialized" then
    ({ jsonrpc := "2.0", result := some (.obj []), error := none, id := req.id }, srv)
  else
    let step : Except McpError JsonVal × McpServer :=
      match req.method with
      | "initialize" => srv.handle_init
      | "tools/list" => (srv.handle_tools_list, srv)
      | "tools/call" => (srv.handle_tools_call req.params, srv)
      | "resources/list" => (srv.handle_resources_list, srv)
      | "resources/read" => (srv.handle_resources_read req.params, srv)
      | m => (.error (.unknownMethod m), srv)
    match step with
    | (.ok value, srv') =>
      ({ jsonrpc := "2.0", result := some value, error := none, id := req.id }, srv')
    | (.error e, srv') =>
      ({ jsonrpc := "2.0", result := none,
         error := some (.internal_error (McpError.toMessage e)), id := req.id }, srv')

/-- serde deserialization of `JsonRpcRequest` from a JSON value: an object
with string `jsonrpc` and `method`; `params` defaults to `None` when absent
or null; `id` is `None` when absent or null.  Arrays and scalars fail. -/
def parseJsonRpcRequest (v : JsonVal) : Option JsonRpcRequest :=
  match v with
  | .obj _ =>
    match v.getField "jsonrpc", v.getField "method" with
    | some (.str j), some (.str m) =>
      let params := match v.getField "params" with
        | none => none
        | some .null => none
        | some p => some p
      let id := match v.getField "id" with
        | none => none
        | some .null => none
        | some i => some i
      some { jsonrpc := j, method := m, params := params, id := id }
    | _, _ => none
  | _ => none

/-- The text of the serde parse error interpolated by `run_stdio` — produced
by the external JSON library; no claim depends on it. -/
def serdeErrorMessage : String := "invalid type for JsonRpcRequest"

/-- One iteration of `McpServer::run_stdio` for a non-blank input line that
is well-formed JSON (value `v`): parse as a single `JsonRpcRequest` — the
loop never parses batches — handle, and emit exactly one response line. -/
def McpServer.run_stdio_step (srv : McpServer) (v : JsonVal) :
    JsonRpcResponse × McpServer :=
  match parseJsonRpcRequest v with
  | some req => srv.handle_request req
  | none =>
    ({ jsonrpc := "2.0", result := none,
       error := some (.parse_error serdeErrorMessage), id := none }, srv)

/-! ## Project stores and application state (`projects.rs`, `app_state.rs`)

`ProjectStore` bundles the per-project stores behind one storage location;
the `build_command_store` member is taken from its use sites in
`http_server.rs` (the `projects.rs` snapshot lists `info`, `context_store`
and `todo_store`).  Stores live in SQLite in the source; here they are the
functional states defined above, and the tracked-file store is its
`list_files` snapshot. -/

/-- `ProjectInfo` from `projects.rs`. -/
structure ProjectInfo where
  id : String
  name : String
  root_path : String
  db_path : String
  created_at : Nat
  updated_at : Nat

/-- The per-project store bundle. -/
structure ProjectStore where
  info : ProjectInfo
  context_files : List String
  todo : TodoDb
  build : BuildDb

/-- Renderings of rows into tool-output text, performed by `serde_json`
(`to_string` / `to_string_pretty`) in the source; the rendered text
participates in no claim, so it stays an oracle. -/
structure JsonRenderers where
  todo_row : TodoItem → String
  todo_rows : List TodoItem → String
  todo_row_opt : Option TodoItem → String
  build_row : BuildCommand → String
  build_rows : List BuildCommand → String
  build_row_opt : Option BuildCommand → String

/-- `AppState` as the embedded dispatcher sees it: the tool registry, the
project registry/store-cache contents keyed by project id, the event
history, the shell runner (`run_shell_command`, an external process spawn)
and the serde renderers. -/
structure AppStateM where
  tool_registry : List Tool
  projects : List (String × ProjectStore)
  event_history : List ToolCallEvent
  shell : String → String → Except String String
  render : JsonRenderers

/-- `AppState::get_project_store`: a cached or registered project id yields
its shared store; an unknown id fails `NotInContext`.  (The cache-miss path
constructs the store from the same storage location, so hit and miss return
the same state; the unguarded concurrent-miss race is a liveness/ownership
issue outside this sequential model.) -/
def get_project_store (st : AppStateM) (project_id : String) :
    Except ContextError ProjectStore :=
  match st.projects.find? (fun p => p.1 == project_id) with
  | some p => .ok p.2
  | none => .error (.notInContext project_id)

/-- Writing a mutated project store back (the source mutates the shared
SQLite-backed store in place). -/
def set_project_store (st : AppStateM) (project_id : String)
    (ps : ProjectStore) : AppStateM :=
  { st with projects := st.projects.map (fun p =>
      if p.1 == project_id then (p.1, ps) else p) }

/-- `TodoStore::list`: `ORDER BY position ASC`. -/
def TodoStore.list (db : TodoDb) : List TodoItem :=
  db.rows.mergeSort (fun a b => a.position ≤ b.position)

/-- `TodoStore::get_next`: first row by ascending position with
`completed = 0`. -/
def TodoStore.get_next (db : TodoDb) : Option TodoItem :=
  (TodoStore.list db).find? (fun r => !r.completed)

/-- `BuildCommandStore::list`: `ORDER BY created_at DESC`. -/
def BuildCommandStore.list (db : BuildDb) : List BuildCommand :=
  db.rows.mergeSort (fun a b => b.created_at ≤ a.created_at)

/-! ## HTTP dispatcher (`http_server.rs`) -/

/-- `require_arg_string` from `http_server.rs`. -/
def require_arg_string (args : JsonVal) (key : String) : Except String String :=
  match (args.getField key).bind JsonVal.asStr with
  | some s => .ok s
  | none => .error ("Missing \x27" ++ key ++ "\x27")

/-- `require_arg_i64` from `http_server.rs`. -/
def require_arg_i64 (args : JsonVal) (key : String) : Except String Int :=
  match (args.getField key).bind JsonVal.asI64 with
  | some n => .ok n
  | none => .error ("Missing \x27" ++ key ++ "\x27")

/-- `is_todo_tool` from `http_server.rs`. -/
def is_todo_tool (tool_name : String) : Bool :=
  tool_name == "todo_add" || tool_name == "todo_remove" ||
  tool_name == "todo_check" || tool_name == "todo_list" ||
  tool_name == "todo_get_next" || tool_name == "todo_insert" ||
  tool_name == "todo_move"

/-- `is_build_tool` from `http_server.rs`. -/
def is_build_tool (tool_name : String) : Bool :=
  tool_name == "build_add_command" || tool_name == "build_remove_command" ||
  tool_name == "build_list_commands" || tool_name == "build_run_command" ||
  tool_name == "build_set_default" || tool_name == "build_get_default"

/-- `execute_todo_tool_call` from `http_server.rs`: resolve the project
store, dispatch by tool name onto the ordered store, write the mutated
store back.  `now` models the `Utc::now()` timestamps taken inside the
store calls. -/
def execute_todo_tool_call (st : AppStateM) (tool_name : String)
    (arguments : JsonVal) (project_id : String) (now : Nat) :
    Except String String × AppStateM :=
  match get_project_store st project_id with
  | .error e => (.error e.toMessage, st)
  | .ok store =>
    match tool_name with
    | "todo_add" =>
      match require_arg_string arguments "title" with
      | .error e => (.error e, st)
      | .ok title =>
        let description := (arguments.getField "description").bind JsonVal.asStr
        let position := (arguments.getField "position").bind JsonVal.asI64
        let (todo, db') := TodoStore.add store.todo title description position now
        (.ok (st.render.todo_row todo),
         set_project_store st project_id { store with todo := db' })
    | "todo_insert" =>
      match require_arg_string arguments "title" with
      | .error e => (.error e, st)
      | .ok title =>
        match require_arg_i64 arguments "position" with
        | .error e => (.error e, st)
        | .ok position =>
          let description := (arguments.getField "description").bind JsonVal.asStr
          let (todo, db') := TodoStore.add store.todo title description (some position) now
          (.ok (st.render.todo_row todo),
           set_project_store st project_id { store with todo := db' })
    | "todo_remove" =>
      match require_arg_string arguments "id" with
      | .error e => (.error e, st)
      | .ok id =>
        match TodoStore.remove store.todo id with
        | .error e => (.error e.toMessage, st)
        | .ok db' =>
          (.ok "removed", set_project_store st project_id { store with todo := db' })
    | "todo_check" =>
      match require_arg_string arguments "id" with
      | .error e => (.error e, st)
      | .ok id =>
        let completed := ((arguments.getField "completed").bind JsonVal.asBool).getD true
        match TodoStore.set_completed store.todo id completed now with
        | .error e => (.error e.toMessage, st)
        | .ok db' =>
          (.ok "updated", set_project_store st project_id { store with todo := db' })
    | "todo_list" => (.ok (st.render.todo_rows (TodoStore.list store.todo)), st)
    | "todo_get_next" => (.ok (st.render.todo_row_opt (TodoStore.get_next store.todo)), st)
    | "todo_move" =>
      match require_arg_string arguments "id" with
      | .error e => (.error e, st)
      | .ok id =>
        match require_arg_i64 arguments "position" with
        | .error e => (.error e, st)
        | .ok position =>
          match TodoStore.move_to store.todo id position now with
          | .error e => (.error e.toMessage, st)
          | .ok db' =>
            (.ok "moved", set_project_store st project_id { store with todo := db' })
    | _ => (.error "Unknown todo tool", st)

/-- `execute_build_tool_call` from `http_server.rs`. -/
def execute_build_tool_call (st : AppStateM) (tool_name : String)
    (arguments : JsonVal) (project_id : String) (now : Nat) :
    Except String String × AppStateM :=
  match tool_name with
  | "build_add_command" =>
    match (arguments.getField "name").bind JsonVal.asStr with
    | none => (.error "Missing name", st)
    | some name =>
      match (arguments.getField "command").bind JsonVal.asStr with
      | none => (.error "Missing command", st)
      | some command =>
        let working_dir := (arguments.getField "working_dir").bind JsonVal.asStr
        match get_project_store st project_id with
        | .error e => (.error e.toMessage, st)
        | .ok store =>
          let (cmd, db') := BuildCommandStore.add store.build name command working_dir now
          (.ok (st.render.build_row cmd),
           set_project_store st project_id { store with build := db' })
  | "build_remove_command" =>
    match (arguments.getField "id").bind JsonVal.asStr with
    | none => (.error "Missing id", st)
    | some id =>
      match get_project_store st project_id with
      | .error e => (.error e.toMessage, st)
      | .ok store =>
        match BuildCommandStore.remove store.build id with
        | .error e => (.error e.toMessage, st)
        | .ok db' =>
          (.ok "ok", set_project_store st project_id { store with build := db' })
  | "build_list_commands" =>
    match get_project_store st project_id with
    | .error e => (.error e.toMessage, st)
    | .ok store => (.ok (st.render.build_rows (BuildCommandStore.list store.build)), st)
  | "build_run_command" =>
    match (arguments.getField "id").bind JsonVal.asStr with
    | none => (.error "Missing id", st)
    | some id =>
      match get_project_store st project_id with
      | .error e => (.error e.toMessage, st)
      | .ok store =>
        match BuildCommandStore.get store.build id with
        | none => (.error "Build command not found", st)
        | some cmd =>
          let working_dir := cmd.working_dir.getD store.info.root_path
          (st.shell cmd.command working_dir, st)
  | "build_set_default" =>
    match (arguments.getField "id").bind JsonVal.asStr with
    | none => (.error "Missing id", st)
    | some id =>
      match get_project_store st project_id with
      | .error e => (.error e.toMessage, st)
      | .ok store =>
        -- the clearing UPDATE persists even when the target is missing
        match BuildCommandStore.set_default store.build id with
        | (.ok _, db') =>
          (.ok "ok", set_project_store st project_id { store with build := db' })
        | (.error e, db') =>
          (.error e.toMessage, set_project_store st project_id { store with build := db' })
  | "build_get_default" =>
    match get_project_store st project_id with
    | .error e => (.error e.toMessage, st)
    | .ok store => (.ok (st.render.build_row_opt (BuildCommandStore.get_default store.build)), st)
  | _ => (.error ("Unknown build tool: " ++ tool_name), st)

/-- `ToolCallResult` from `http_server.rs`. -/
structure ToolCallResult where
  content : String
  duration_ms : Nat

/-- Ambient effects of one tool call: generated call id, wall-clock
timestamp and elapsed duration (`Uuid::new_v4`, `Utc::now`, `Instant`),
plus the storage clock. -/
structure CallEnv where
  call_id : String
  timestamp : String
  duration_ms : Nat
  now : Nat

/-- `execute_tool_call` from `http_server.rs`: intercept the two
project-scoped families ahead of the registry, otherwise dispatch through
the registry; always record a `ToolCallEvent` (success or failure) on the
event bus. -/
def execute_tool_call (st : AppStateM) (env : CallEnv) (tool_name : String)
    (arguments : JsonVal) (project_id : String) :
    Except String ToolCallResult × AppStateM :=
  let step : Except String String × AppStateM :=
    if is_todo_tool tool_name then
      execute_todo_tool_call st tool_name arguments project_id env.now
    else if is_build_tool tool_name then
      execute_build_tool_call st tool_name arguments project_id env.now
    else
      match registryGet st.tool_registry tool_name with
      | none => (.error ("Tool not found: " ++ tool_name), st)
      | some tool =>
        match tool.execute arguments with
        | .ok r => (.ok r.content, st)
        | .error e => (.error (ToolError.toMessage e), st)
  match step with
  | (.ok output, st') =>
    let event : ToolCallEvent :=
      { id := env.call_id, timestamp := env.timestamp, tool_name := tool_name,
        project_id := project_id, arguments := arguments, success := true,
        content := output, duration_ms := env.duration_ms }
    (.ok { content := output, duration_ms := env.duration_ms },
     { st' with event_history := record_event st'.event_history event })
  | (.error e, st') =>
    let event : ToolCallEvent :=
      { id := env.call_id, timestamp := env.timestamp, tool_name := tool_name,
        project_id := project_id, arguments := arguments, success := false,
        content := e, duration_ms := env.duration_ms }
    (.error e,
     { st' with event_history := record_event st'.event_history event })

/-- `json_rpc_error_response` from `http_server.rs`. -/
def json_rpc_error_response (code : Int) (message : String)
    (id : Option JsonVal) : JsonRpcResponse :=
  { jsonrpc := "2.0", result := none,
    error := some { code := code, message := message }, id := id }

/-- `map_tools` from `http_server.rs`. -/
def map_tools (tools : List ToolDefinition) (schema_key : String) : List JsonVal :=
  tools.map (fun t =>
    .obj [("name", .str t.name), ("description", .str t.description),
          (schema_key, t.input_schema)])

/-- `mcp_content_response` from `http_server.rs`. -/
def mcp_content_response (id : Option JsonVal) (content : String)
    (is_error : Bool) : JsonRpcResponse :=
  { jsonrpc := "2.0",
    result := some (.obj [
      ("content", .arr [.obj [("type", .str "text"), ("text", .str content)]]),
      ("isError", .bool is_error)]),
    error := none, id := id }

/-- `handle_mcp_initialize` from `http_server.rs`: no lifecycle state is
consulted or changed. -/
def handle_mcp_init_http (id : Option JsonVal) : JsonRpcResponse :=
  { jsonrpc := "2.0", result := some initializeResultJson, error := none, id := id }

/-- `todo_tool_definitions` from `http_server.rs`. -/
def todo_tool_definitions : List ToolDefinition :=
  [{ name := "todo_add", description := "Add a todo item to the ordered list",
     input_schema := .obj [("type", .str "object"),
       ("properties", .obj [
         ("title", .obj [("type", .str "string")]),
         ("description", .obj [("type", .str "string")]),
         ("position", .obj [("type", .str "integer")]),
         ("project_id", .obj [("type", .str "string")])]),
       ("required", .arr [.str "title"])] },
   { name := "todo_remove", description := "Remove a todo item",
     input_schema := .obj [("type", .str "object"),
       ("properties", .obj [("id", .obj [("type", .str "string")])]),
       ("required", .arr [.str "id"])] },
   { name := "todo_check", description := "Mark a todo item completed or not",
     input_schema := .obj [("type", .str "object"),
       ("properties", .obj [
         ("id", .obj [("type", .str "string")]),
         ("completed", .obj [("type", .str "boolean")])]),
       ("required", .arr [.str "id"])] },
   { name := "todo_list", description := "List all todos in order",
     input_schema := .obj [("type", .str "object"),
       ("properties", .obj [("project_id", .obj [("type", .str "string")])])] },
   { name := "todo_get_next", description := "Get the next incomplete todo",
     input_schema := .obj [("type", .str "object"),
       ("properties", .obj [("project_id", .obj [("type", .str "string")])])] },
   { name := "todo_insert", description := "Insert a todo at a specific position",
     input_schema := .obj [("type", .str "object"),
       ("properties", .obj [
         ("title", .obj [("type", .str "string")]),
         ("description", .obj [("type", .str "string")]),
         ("position", .obj [("type", .str "integer")])]),
       ("required", .arr [.str "title", .str "position"])] },
   { name := "todo_move", description := "Move a todo to a new position",
     input_schema := .obj [("type", .str "object"),
       ("properties", .obj [
         ("id", .obj [("type", .str "string")]),
         ("position", .obj [("type", .str "integer")])]),
       ("required", .arr [.str "id", .str "position"])] }]

/-- `build_tool_definitions` from `http_server.rs`. -/
def build_tool_definitions : List ToolDefinition :=
  [{ name := "build_add_command", description := "Add a build command to the project.",
     input_schema := .obj [("type", .str "object"),
       ("properties", .obj [
         ("name", .obj [("type", .str "string")]),
         ("command", .obj [("type", .str "string")]),
         ("working_dir", .obj [("type", .str "string")])]),
       ("required", .arr [.str "name", .str "command"])] },
   { name := "build_remove_command", description := "Remove a build command by id.",
     input_schema := .obj [("type", .str "object"),
       ("properties", .obj [("id", .obj [("type", .str "string")])]),
       ("required", .arr [.str "id"])] },
   { name := "build_list_commands", description := "List build commands for the project.",
     input_schema := .obj [("type", .str "object"), ("properties", .obj [])] },
   { name := "build_run_command", description := "Run a build command by id.",
     input_schema := .obj [("type", .str "object"),
       ("properties", .obj [("id", .obj [("type", .str "string")])]),
       ("required", .arr [.str "id"])] },
   { name := "build_set_default", description := "Set the default build command by id.",
     input_schema := .obj [("type", .str "object"),
       ("properties", .obj [("id", .obj [("type", .str "string")])]),
       ("required", .arr [.str "id"])] },
   { name := "build_get_default", description := "Get the default build command.",
     input_schema := .obj [("type", .str "object"), ("properties", .obj [])] }]

/-- `handle_mcp_tools_list` from `http_server.rs`: the registry tools with
the two intercepted families appended, serialized under `inputSchema`. -/
def handle_mcp_tools_list (st : AppStateM) (id : Option JsonVal) : JsonRpcResponse :=
  { jsonrpc := "2.0",
    result := some (.obj [("tools", .arr (map_tools
      (registryList st.tool_registry ++ todo_tool_definitions ++ build_tool_definitions)
      "inputSchema"))]),
    error := none, id := id }

/-- `require_params` from `http_server.rs`. -/
def require_params (params : Option JsonVal) (id : Option JsonVal) :
    Except JsonRpcResponse JsonVal :=
  match params with
  | some p => .ok p
  | none => .error (json_rpc_error_response (-32602) "Missing params" id)

/-- `require_str_param` from `http_server.rs`. -/
def require_str_param (params : JsonVal) (key : String) (id : Option JsonVal) :
    Except JsonRpcResponse String :=
  match (params.getField key).bind JsonVal.asStr with
  | some s => .ok s
  | none => .error (json_rpc_error_response (-32602) ("Missing " ++ key) id)

/-- `handle_mcp_tools_call` from `http_server.rs`: tool execution failures
become successful envelopes with `isError = true`. -/
def handle_mcp_tools_call (st : AppStateM) (env : CallEnv) (id : Option JsonVal)
    (params : Option JsonVal) : JsonRpcResponse × AppStateM :=
  match require_params params id with
  | .error e => (e, st)
  | .ok params =>
    match require_str_param params "name" id with
    | .error e => (e, st)
    | .ok tool_name =>
      let arguments := (params.getField "arguments").getD (.obj [])
      let project_id :=
        (((params.getField "projectId").or (params.getField "project_id")).bind
          JsonVal.asStr).getD "default"
      match execute_tool_call st env tool_name arguments project_id with
      | (.ok result, st') => (mcp_content_response id result.content false, st')
      | (.error e, st') => (mcp_content_response id e true, st')

/-- `handle_mcp_resources_list` from `http_server.rs`. -/
def handle_mcp_resources_list (st : AppStateM) (id : Option JsonVal)
    (params : Option JsonVal) : JsonRpcResponse :=
  let project_id :=
    ((params.bind (fun p => (p.getField "projectId").or (p.getField "project_id"))).bind
      JsonVal.asStr).getD "default"
  match get_project_store st project_id with
  | .error e => json_rpc_error_response (-32603) e.toMessage id
  | .ok store =>
    { jsonrpc := "2.0",
      result := some (.obj [("resources", .arr (store.context_files.map (fun f =>
        .obj [("uri", .str ("file://" ++ f)),
              ("name", .str (file_name_display f)),
              ("mimeType", .str "text/plain")])))]),
      error := none, id := id }

/-- `handle_mcp_resources_read` from `http_server.rs`. -/
def handle_mcp_resources_read (st : AppStateM) (id : Option JsonVal)
    (params : Option JsonVal) : JsonRpcResponse :=
  match require_params params id with
  | .error e => e
  | .ok params =>
    match require_str_param params "uri" id with
    | .error e => e
    | .ok uri =>
      match strip_file_scheme uri with
      | none => json_rpc_error_response (-32602) "Invalid uri" id
      | some path =>
        match registryGet st.tool_registry "read_file" with
        | none => json_rpc_error_response (-32603) "read_file tool not found" id
        | some read_file =>
          match read_file.execute (.obj [("path", .str path)]) with
          | .error e => json_rpc_error_response (-32603) (ToolError.toMessage e) id
          | .ok result =>
            { jsonrpc := "2.0",
              result := some (.obj [("contents", .arr [.obj [
                ("uri", .str uri),
                ("mimeType", .str "text/plain"),
                ("text", .str result.content)]])]),
              error := none, id := id }

/-- `parse_json_rpc_request` from `http_server.rs`: serde deserialization
(-32700 on shape errors) then the protocol version check (-32600). -/
def parse_json_rpc_request (v : JsonVal) : Except JsonRpcResponse JsonRpcRequest :=
  match parseJsonRpcRequest v with
  | none =>
    .error (json_rpc_error_response (-32700)
      ("Invalid JSON-RPC request: " ++ serdeErrorMessage) none)
  | some req =>
    if req.jsonrpc ≠ "2.0" then
      .error (json_rpc_error_response (-32600) "Invalid JSON-RPC version" req.id)
    else
      .ok req

/-- The method dispatch of `handle_mcp_request` from `http_server.rs`
(after parsing): note there is no lifecycle state anywhere, and unknown
methods answer -32601. -/
def httpDispatch (st : AppStateM) (env : CallEnv) (req : JsonRpcRequest) :
    JsonRpcResponse × AppStateM :=
  match req.method with
  | "initialize" => (handle_mcp_init_http req.id, st)
  | "tools/list" => (handle_mcp_tools_list st req.id, st)
  | "tools/call" => handle_mcp_tools_call st env req.id req.params
  | "resources/list" => (handle_mcp_resources_list st req.id req.params, st)
  | "resources/read" => (handle_mcp_resources_read st req.id req.params, st)
  | m => (json_rpc_error_response (-32601) ("Method not found: " ++ m) req.id, st)

/-- `handle_mcp_request` from `http_server.rs` on a request body. -/
def handle_mcp_request (st : AppStateM) (env : CallEnv) (v : JsonVal) :
    JsonRpcResponse × AppStateM :=
  match parse_json_rpc_request v with
  | .error resp => (resp, st)
  | .ok req => httpDispatch st env req

/-! ## Concrete instances used by counterexamples and witnesses -/

/-- A filesystem oracle whose every call fails (read errors, etc.). -/
def fsFail : String → JsonVal → Except ToolError ToolResult :=
  fun _ _ => .error (.ioError "io failure")

def sampleRenderers : JsonRenderers :=
  { todo_row := fun _ => "", todo_rows := fun _ => "", todo_row_opt := fun _ => "",
    build_row := fun _ => "", build_rows := fun _ => "", build_row_opt := fun _ => "" }

def sampleProjectInfo : ProjectInfo :=
  { id := "default", name := "Default", root_path := "/root",
    db_path := "/root/.aiharness/project.db", created_at := 0, updated_at := 0 }

def sampleProject : ProjectStore :=
  { info := sampleProjectInfo, context_files := [], todo := emptyTodoDb,
    build := emptyBuildDb }

def sampleHttpState : AppStateM :=
  { tool_registry := create_standard_registry fsFail,
    projects := [("default", sampleProject)],
    event_history := [], shell := fun _ _ => .ok "", render := sampleRenderers }

def sampleEnv : CallEnv :=
  { call_id := "call-1", timestamp := "t0", duration_ms := 0, now := 0 }

def freshStdioServer : McpServer :=
  { state := .uninitialized, tool_registry := create_standard_registry fsFail,
    context_files := [] }

def initializedStdioServer : McpServer :=
  { state := .initialized, tool_registry := create_standard_registry fsFail,
    context_files := [] }

/-- Projection used to tell two `tools/list` responses apart: the length of
the `"tools"` array inside the result. -/
def responseToolsCount (resp : JsonRpcResponse) : Option Nat :=
  match resp.result with
  | some (JsonVal.obj fs) =>
    match (fs.find? (fun f => f.1 == "tools")).map (·.2) with
    | some (JsonVal.arr xs) => some xs.length
    | _ => none
  | _ => none

/-! ## Claim theorems: C3, C4, C5, C6, C10 -/

/-- C3 (counterexample): the claim as stated is false for the embedded HTTP
realization, which keeps no lifecycle state at all: a `tools/list` request
against a freshly built application state — no `initialize` was ever sent —
succeeds instead of failing with NotInitialized. -/
theorem C3_lifecycle_counterexample :
    (handle_mcp_request sampleHttpState sampleEnv
      (JsonVal.obj [("jsonrpc", .str "2.0"), ("method", .str "tools/list"),
        ("id", .num 1)])).1.error = none ∧
    (handle_mcp_request sampleHttpState sampleEnv
      (JsonVal.obj [("jsonrpc", .str "2.0"), ("method", .str "tools/list"),
        ("id", .num 1)])).1.result.isSome = true := by
  exact ⟨rfl, rfl⟩

/-- C3 (amended): the lifecycle holds for the standalone stdio dispatcher
and for its four state-guarded methods: `tools/list`, `tools/call`,
`resources/list` and `resources/read` fail with NotInitialized whenever the
state is not Initialized; `initialize` in the Initialized state fails with
AlreadyInitialized; from Uninitialized, `initialize` succeeds and
`tools/list` then succeeds.  (The embedded HTTP realization keeps no
lifecycle state — see the counterexample — and `notifications/initialized`
and unknown methods are answered without a state check.) -/
theorem C3_lifecycle_amended :
    (∀ srv : McpServer, srv.state ≠ .initialized →
      srv.handle_tools_list = .error .notInitialized ∧
      (∀ params, srv.handle_tools_call params = .error .notInitialized) ∧
      srv.handle_resources_list = .error .notInitialized ∧
      (∀ params, srv.handle_resources_read params = .error .notInitialized)) ∧
    (∀ srv : McpServer, srv.state = .initialized →
      srv.handle_init = (.error .alreadyInitialized, srv)) ∧
    (∀ srv : McpServer, srv.state = .uninitialized →
      ∃ v srv', srv.handle_init = (.ok v, srv') ∧ ∃ w, srv'.handle_tools_list = .ok w) := by
  refine ⟨?_, ?_, ?_⟩
  · intro srv hs
    refine ⟨?_, fun params => ?_, ?_, fun params => ?_⟩ <;>
      simp [McpServer.handle_tools_list, McpServer.handle_tools_call,
        McpServer.handle_resources_list, McpServer.handle_resources_read, hs]
  · intro srv hs
    simp [McpServer.handle_init, hs]
  · intro srv hs
    refine ⟨initializeResultJson, { srv with state := .initialized }, ?_, ?_⟩
    · simp [McpServer.handle_init, hs]
    · refine ⟨.obj [("tools",
        .arr ((registryList srv.tool_registry).map toolDefinitionJson))], ?_⟩
      simp [McpServer.handle_tools_list]

/-- Witness for C3 (amended) at concrete dispatcher states. -/
theorem C3_lifecycle_witness :
    freshStdioServer.handle_tools_list = .error .notInitialized ∧
    initializedStdioServer.handle_init = (.error .alreadyInitialized, initializedStdioServer) ∧
    (∃ v srv', freshStdioServer.handle_init = (.ok v, srv') ∧
      ∃ w, srv'.handle_tools_list = .ok w) :=
  ⟨(C3_lifecycle_amended.1 freshStdioServer (by decide)).1,
   C3_lifecycle_amended.2.1 initializedStdioServer rfl,
   C3_lifecycle_amended.2.2 freshStdioServer rfl⟩

/-- C4 (counterexample): on the same underlying (empty, default) project
state and the same tool registry, the two realizations answer the same
single `tools/list` request differently — the stdio dispatcher lists only
the 4 registry tools (schema key `input_schema`), while the HTTP dispatcher
appends the 7 todo and 6 build tool definitions (schema key `inputSchema`). -/
theorem C4_parity_counterexample :
    (initializedStdioServer.handle_request
      { jsonrpc := "2.0", method := "tools/list", params := none,
        id := some (.num 1) }).1 ≠
    (handle_mcp_request sampleHttpState sampleEnv
      (JsonVal.obj [("jsonrpc", .str "2.0"), ("method", .str "tools/list"),
        ("id", .num 1)])).1 := by
  intro h
  have h4 : responseToolsCount (initializedStdioServer.handle_request
      { jsonrpc := "2.0", method := "tools/list", params := none,
        id := some (.num 1) }).1 = some 4 := rfl
  have h17 : responseToolsCount (handle_mcp_request sampleHttpState sampleEnv
      (JsonVal.obj [("jsonrpc", .str "2.0"), ("method", .str "tools/list"),
        ("id", .num 1)])).1 = some 17 := rfl
  rw [h, h17] at h4
  cases h4

/-- C4 (amended): the two realizations agree on a first `initialize`
request, but not on the rest of the shared surface (see counterexample);
and the stdio loop accepts only single requests — a JSON array input line
is answered with one parse-error response (code -32700, null id), not with
an array of responses. -/
theorem C4_parity_amended :
    (∀ (srv : McpServer) (st : AppStateM) (env : CallEnv) (id : Option JsonVal),
      srv.state = .uninitialized →
      (srv.handle_request
        { jsonrpc := "2.0", method := "initialize",
          params := none, id := id }).1 =
      (httpDispatch st env
        { jsonrpc := "2.0", method := "initialize",
          params := none, id := id }).1) ∧
    (∀ (srv : McpServer) (xs : List JsonVal),
      srv.run_stdio_step (JsonVal.arr xs) =
        ({ jsonrpc := "2.0", result := none,
           error := some (.parse_error serdeErrorMessage), id := none }, srv)) := by
  constructor
  · intro srv st env id hs
    simp [McpServer.handle_request, McpServer.handle_init, hs, httpDispatch,
      handle_mcp_init_http]
  · intro srv xs
    rfl

/-- Witness for C4 (amended) at concrete states. -/
theorem C4_parity_witness :
    (freshStdioServer.handle_request
      { jsonrpc := "2.0", method := "initialize",
        params := none, id := some (.num 1) }).1 =
    (httpDispatch sampleHttpState sampleEnv
      { jsonrpc := "2.0", method := "initialize",
        params := none, id := some (.num 1) }).1 ∧
    freshStdioServer.run_stdio_step (JsonVal.arr []) =
      ({ jsonrpc := "2.0", result := none,
         error := some (.parse_error serdeErrorMessage), id := none },
       freshStdioServer) :=
  ⟨C4_parity_amended.1 freshStdioServer sampleHttpState sampleEnv (some (.num 1)) rfl,
   C4_parity_amended.2 freshStdioServer []⟩

/-- C5 (counterexample): on the standalone stdio dispatcher a failing tool
execution is NOT wrapped into a successful envelope: `tools/call` on
`read_file` whose filesystem read fails yields a JSON-RPC error object
(code -32603) and no result. -/
theorem C5_tool_failure_counterexample :
    (initializedStdioServer.handle_request
      { jsonrpc := "2.0", method := "tools/call",
        params := some (.obj [("name", .str "read_file"),
          ("arguments", .obj [("path", .str "/x")])]),
        id := some (.num 1) }).1.error =
      some (JsonRpcError.internal_error (McpError.toMessage
        (.toolExecutionFailed (ToolError.toMessage (.ioError "io failure"))))) ∧
    (initializedStdioServer.handle_request
      { jsonrpc := "2.0", method := "tools/call",
        params := some (.obj [("name", .str "read_file"),
          ("arguments", .obj [("path", .str "/x")])]),
        id := some (.num 1) }).1.result = none := by
  exact ⟨rfl, rfl⟩

/-- C5 (amended): on the embedded HTTP dispatcher every `execute_tool_call`
failure is returned as a successful JSON-RPC envelope whose result is a
content block carrying the message with `isError = true`; on the standalone
stdio dispatcher a tool returning a failed `ToolResult` is wrapped the same
way, but a tool whose execution returns `Err` becomes a JSON-RPC error
object with code -32603 (`ToolExecutionFailed` mapped through
`internal_error`). -/
theorem C5_tool_failure_amended :
    (∀ (st : AppStateM) (env : CallEnv) (id : Option JsonVal) (tool_name : String)
       (args : JsonVal) (msg : String) (st' : AppStateM),
      execute_tool_call st env tool_name args "default" = (.error msg, st') →
      handle_mcp_tools_call st env id
        (some (.obj [("name", .str tool_name), ("arguments", args)])) =
        (mcp_content_response id msg true, st')) ∧
    (∀ (srv : McpServer) (tool : Tool) (name : String) (args : JsonVal),
      srv.state = .initialized →
      registryGet srv.tool_registry name = some tool →
      (∀ e : ToolError, tool.execute args = .error e →
        srv.handle_tools_call (some (.obj [("name", .str name),
          ("arguments", args)])) =
          .error (.toolExecutionFailed (ToolError.toMessage e))) ∧
      (∀ r : ToolResult, tool.execute args = .ok r →
        srv.handle_tools_call (some (.obj [("name", .str name),
          ("arguments", args)])) =
          .ok (.obj [
            ("content", .arr [.obj [("type", .str "text"),
              ("text", .str r.content)]]),
            ("isError", .bool (!r.success))]))) := by
  constructor
  · intro st env id tool_name args msg st' hexec
    have hparse : handle_mcp_tools_call st env id
        (some (.obj [("name", .str tool_name), ("arguments", args)])) =
        match execute_tool_call st env tool_name args "default" with
        | (.ok result, st') => (mcp_content_response id result.content false, st')
        | (.error e, st') => (mcp_content_response id e true, st') := rfl
    rw [hparse, hexec]
  · intro srv tool name args hs hreg
    have hparse : srv.handle_tools_call
        (some (.obj [("name", .str name), ("arguments", args)])) =
        if srv.state ≠ ServerState.initialized then .error .notInitialized
        else
          match registryGet srv.tool_registry name with
          | none => .error (.toolNotFound name)
          | some tool =>
            match tool.execute args with
            | .error e => .error (.toolExecutionFailed (ToolError.toMessage e))
            | .ok result =>
              .ok (.obj [
                ("content", .arr [.obj [("type", .str "text"),
                  ("text", .str result.content)]]),
                ("isError", .bool (!result.success))]) := rfl
    constructor
    · intro e hexec
      rw [hparse, if_neg (by simp [hs])]
      simp only [hreg, hexec]
    · intro r hexec
      rw [hparse, if_neg (by simp [hs])]
      simp only [hreg, hexec]

/-- Witness for C5 (amended): the HTTP side wraps a failing `read_file`
call into an `isError` content envelope; the stdio side at the same failing
tool yields the -32603-bound dispatcher error. -/
theorem C5_tool_failure_witness :
    handle_mcp_tools_call sampleHttpState sampleEnv (some (.num 1))
      (some (.obj [("name", .str "read_file"),
        ("arguments", .obj [("path", .str "/x")])])) =
      (mcp_content_response (some (.num 1))
        (ToolError.toMessage (.ioError "io failure")) true,
       (execute_tool_call sampleHttpState sampleEnv "read_file"
         (.obj [("path", .str "/x")]) "default").2) ∧
    initializedStdioServer.handle_tools_call
      (some (.obj [("name", .str "read_file"),
        ("arguments", .obj [("path", .str "/x")])])) =
      .error (.toolExecutionFailed (ToolError.toMessage (.ioError "io failure"))) := by
  constructor
  · exact C5_tool_failure_amended.1 sampleHttpState sampleEnv (some (.num 1))
      "read_file" (.obj [("path", .str "/x")])
      (ToolError.toMessage (.ioError "io failure")) _ rfl
  · exact (C5_tool_failure_amended.2 initializedStdioServer
      { name := "read_file",
        description := "Read the contents of a file. Returns the file content as text. Will not read binary files. Limited to 1MB.",
        input_schema := readFileSchema, execute := fsFail "read_file" }
      "read_file" (.obj [("path", .str "/x")]) rfl rfl).1
      (.ioError "io failure") rfl

/-- C6 (counterexample): on the standalone stdio dispatcher a valid "2.0"
request with an undefined method is answered with code -32603 (all
dispatcher errors are mapped through `internal_error`), not -32601. -/
theorem C6_unknown_method_counterexample :
    (initializedStdioServer.handle_request
      { jsonrpc := "2.0", method := "foo/bar", params := none,
        id := some (.num 1) }).1.error.map (fun e => e.code) = some (-32603) ∧
    ((-32603 : Int) ≠ -32601) := by
  exact ⟨rfl, by decide⟩

/-- C6 (amended): for a valid "2.0" envelope with a method outside the
defined set, the embedded HTTP dispatcher answers -32601 (method not
found), while the standalone stdio dispatcher answers -32603. -/
theorem C6_unknown_method_amended (st : AppStateM) (env : CallEnv)
    (srv : McpServer) (req : JsonRpcRequest) (hver : req.jsonrpc = "2.0")
    (hm : req.method ∉ (["initialize", "notifications/initialized", "tools/list",
      "tools/call", "resources/list", "resources/read"] : List String)) :
    (httpDispatch st env req).1.error =
      some { code := -32601, message := "Method not found: " ++ req.method } ∧
    (srv.handle_request req).1.error =
      some (JsonRpcError.internal_error (McpError.toMessage (.unknownMethod req.method))) := by
  simp only [List.mem_cons, List.mem_singleton, not_or] at hm
  obtain ⟨h1, h2, h3, h4, h5, h6⟩ := hm
  constructor
  · unfold httpDispatch
    split
    all_goals simp_all [json_rpc_error_response]
  · unfold McpServer.handle_request
    rw [if_neg (by simp [hver]), if_neg h2]
    split
    all_goals simp_all [JsonRpcError.internal_error]

/-- Witness for C6 (amended) at a concrete unknown method. -/
theorem C6_unknown_method_witness :
    (httpDispatch sampleHttpState sampleEnv
      { jsonrpc := "2.0", method := "foo/bar",
        params := none, id := some (.num 1) }).1.error =
      some { code := -32601, message := "Method not found: " ++ "foo/bar" } ∧
    (initializedStdioServer.handle_request
      { jsonrpc := "2.0", method := "foo/bar",
        params := none, id := some (.num 1) }).1.error =
      some (JsonRpcError.internal_error (McpError.toMessage (.unknownMethod "foo/bar"))) :=
  C6_unknown_method_amended sampleHttpState sampleEnv initializedStdioServer
    { jsonrpc := "2.0", method := "foo/bar", params := none, id := some (.num 1) }
    rfl (by decide)

/-- C10: `todo_check` with an existing id and an absent or non-boolean
`completed` argument marks the item completed (`completed` defaults to
true).  Both the `/call` endpoint and MCP `tools/call` route `todo_check`
through `execute_tool_call` into this interception. -/
theorem C10_todo_check_default (st : AppStateM) (project_id id : String)
    (store : ProjectStore) (args : JsonVal) (now : Nat)
    (hstore : get_project_store st project_id = .ok store)
    (hid : (args.getField "id").bind JsonVal.asStr = some id)
    (hcompleted : (args.getField "completed").bind JsonVal.asBool = none)
    (hmem : store.todo.rows.any (fun r => r.id == id) = true) :
    execute_todo_tool_call st "todo_check" args project_id now =
      (.ok "updated", set_project_store st project_id
        { store with todo := { store.todo with rows := store.todo.rows.map (fun r =>
            if r.id == id then { r with completed := true, updated_at := now }
            else r) } }) := by
  unfold execute_todo_tool_call
  rw [hstore]
  simp only [require_arg_string, hid]
  rw [show ((args.getField "completed").bind JsonVal.asBool).getD true = true by
    rw [hcompleted]; rfl]
  unfold TodoStore.set_completed
  rw [if_pos hmem]

def sampleTodoRow : TodoItem :=
  { id := "a", title := "t", description := none, completed := false,
    position := 0, created_at := 0, updated_at := 0 }

def sampleTodoProject : ProjectStore :=
  { info := sampleProjectInfo, context_files := [],
    todo := { rows := [sampleTodoRow], nextId := 1 },
    build := emptyBuildDb }

def sampleTodoState : AppStateM :=
  { tool_registry := create_standard_registry fsFail,
    projects := [("default", sampleTodoProject)],
    event_history := [], shell := fun _ _ => .ok "", render := sampleRenderers }

/-- Witness for C10: `todo_check` with only an `id` argument marks the item
completed. -/
theorem C10_todo_check_default_witness :
    execute_todo_tool_call sampleTodoState "todo_check"
      (.obj [("id", .str "a")]) "default" 9 =
      (.ok "updated", set_project_store sampleTodoState "default"
        { sampleTodoProject with todo := { sampleTodoProject.todo with
            rows := sampleTodoProject.todo.rows.map (fun r =>
              if r.id == "a" then { r with completed := true, updated_at := 9 }
              else r) } }) :=
  C10_todo_check_default sampleTodoState "default" "a" sampleTodoProject
    (.obj [("id", .str "a")]) 9 rfl rfl rfl rfl

end AIHarness
